import Mathlib

/-!
# PT2314 audio processor driver

A shallow embedding of `src/PT2314.cpp` (the Arduino PT2314 library) together with
theorems about the register bytes it produces and the way bus failures propagate.

Conventions of the embedding

* C `int` values are `Int`; arithmetic whose operands are not already known to be
  small is wrapped to 32-bit two's complement with `wrapInt`.
* `unsigned int` values are non-negative `Int`s obtained with `toUInt`; the byte that
  reaches the bus is a `Nat` below 256 obtained with `toUChar`.
* `float` values are exact rationals (every constant of the source is a dyadic
  rational that a `float` represents exactly).
* Reading a C array outside its bounds has no defined result: such a read yields
  `none`, and every operation that reads an array returns an `Option`.
* The I2C bus is the structure `Wire`: it records the bytes handed to it and carries
  an arbitrary function giving the return code of each transmission.
-/

namespace Arduino

/-- Modelled from the spec: the `constrain(amt, low, high)` macro of the Arduino core
(not part of the source file), which clamps `amt` into `[low, high]`. -/
def constrain (amt low high : Int) : Int :=
  if amt < low then low else if amt > high then high else amt

/-- Modelled from the spec: the `map(x, in_min, in_max, out_min, out_max)` function of the
Arduino core (not part of the source file), the linear rescale
`(x - in_min) * (out_max - out_min) / (in_max - in_min) + out_min` with C's truncating
division. -/
def map (x in_min in_max out_min out_max : Int) : Int :=
  Int.tdiv ((x - in_min) * (out_max - out_min)) (in_max - in_min) + out_min

end Arduino

open Arduino

/-- Wrap an arithmetic result to a 32-bit two's complement `int`. -/
def wrapInt (x : Int) : Int := (x + 2147483648) % 4294967296 - 2147483648

/-- Conversion of an integer to `unsigned int`. -/
def toUInt (x : Int) : Int := x % 4294967296

/-- Conversion of an integer to `unsigned char`. -/
def toUChar (x : Int) : Nat := (x % 256).toNat

/-- Read of a C array at a signed index; `none` outside the bounds. -/
def index? {α : Type} (xs : List α) (i : Int) : Option α :=
  if i < 0 then none else xs.get? i.toNat

/-- The two-wire bus: the bytes handed to it so far (oldest first) and the return code of
`Wire.endTransmission` as a function of all bytes handed to it up to and including the
current one. Return code 0 is success. -/
structure Wire where
  sent : List Nat
  endTransmission : List Nat → Int

/-- Fields of the driver object (the class `PT2314`). -/
structure PT2314 where
  _volume : Int
  _attenuationL : Int
  _attenuationR : Int
  _mute : Bool
  _loudness : Bool
  _gain_index : Int
  _channel : Int
  _channel_is_one_based : Bool
  _bass : Int
  _treble : Int
  _volume_pt2314 : Int

namespace PT2314

/-- The table `PT2314::eq_table`. -/
def eq_table : List Nat :=
  [0, 0, 1, 1, 2, 2, 3, 3, 4, 4, 5, 5, 6, 6, 7, 14, 14, 13, 13, 12, 12, 11, 11, 10, 10, 9, 9, 8, 8]

/-- `PT2314::volume_to_pt2314`. -/
def volume_to_pt2314 (vol : Int) : Int :=
  wrapInt (63 - Int.tdiv (wrapInt (vol * 63)) 100)

/-- `PT2314::eq_to_pt2314`. -/
def eq_to_pt2314 (val : Int) : Option Int :=
  if val > 28 then some 0
  else (index? eq_table val).map Int.ofNat

/-- `PT2314::writeI2CChar`: one single-byte transmission; returns the return code. -/
def writeI2CChar (w : Wire) (c : Int) : Int × Wire :=
  let sent := w.sent ++ [toUChar c]
  (w.endTransmission sent, { w with sent := sent })

/-- `PT2314::updateVolume`. -/
def updateVolume (s : PT2314) (w : Wire) : Bool × PT2314 × Wire :=
  let s := { s with _volume_pt2314 := volume_to_pt2314 s._volume }
  let (rtnCode, w) := writeI2CChar w s._volume_pt2314
  (decide (rtnCode = 0), s, w)

/-- `PT2314::updateAttenuation`. -/
def updateAttenuation (s : PT2314) (w : Wire) : Bool × Wire :=
  let aL := toUInt (map s._attenuationL 0 100 0b00011111 0b00000000)
  let aR := toUInt (map s._attenuationR 0 100 0b00011111 0b00000000)
  if s._mute then
    let (r1, w) := writeI2CChar w 0b11011111
    if r1 ≠ 0 then (false, w)
    else
      let (r2, w) := writeI2CChar w 0b11111111
      if r2 ≠ 0 then (false, w) else (true, w)
  else
    let (r1, w) := writeI2CChar w (toUInt (Int.lor 0b11000000 aL))
    if r1 ≠ 0 then (false, w)
    else
      let (r2, w) := writeI2CChar w (toUInt (Int.lor 0b11100000 aR))
      if r2 ≠ 0 then (false, w) else (true, w)

/-- The local table `gain_array` of `updateAudioSwitch`. -/
def gain_array : List Int := [0b00011000, 0b00010000, 0b00001000, 0b00000000]

/-- The byte computed by `PT2314::updateAudioSwitch` before it is written. -/
def audioByte (s : PT2314) : Option Int := do
  let audioByte : Int := 0b01000000
  let g ← index? gain_array s._gain_index
  let audioByte := Int.lor audioByte g
  let audioByte := if s._loudness then Int.lor audioByte 0b00000000 else Int.lor audioByte 0b00000100
  let audioByte := Int.lor audioByte s._channel
  pure audioByte

/-- `PT2314::updateAudioSwitch`. -/
def updateAudioSwitch (s : PT2314) (w : Wire) : Option (Bool × Wire) := do
  let audioByte ← audioByte s
  let (rtnCode, w) := writeI2CChar w audioByte
  pure (decide (rtnCode = 0), w)

/-- `PT2314::updateBass`. -/
def updateBass (s : PT2314) (w : Wire) : Option (Bool × Wire) := do
  let r ← eq_to_pt2314 (map s._bass 0 100 0 28)
  let val := toUInt r
  let (rtnCode, w) := writeI2CChar w (toUInt (Int.lor 0x60 val))
  pure (decide (rtnCode = 0), w)

/-- `PT2314::updateTreble`. -/
def updateTreble (s : PT2314) (w : Wire) : Option (Bool × Wire) := do
  let r ← eq_to_pt2314 (map s._treble 0 100 0 28)
  let val := toUInt r
  let (rtnCode, w) := writeI2CChar w (toUInt (Int.lor 0x70 val))
  pure (decide (rtnCode = 0), w)

/-- `PT2314::updateAll`. -/
def updateAll (s : PT2314) (w : Wire) : Option (Bool × PT2314 × Wire) :=
  match updateVolume s w with
  | (false, s, w) => some (false, s, w)
  | (true, s, w) =>
    match updateAttenuation s w with
    | (false, w) => some (false, s, w)
    | (true, w) =>
      match updateAudioSwitch s w with
      | none => none
      | some (false, w) => some (false, s, w)
      | some (true, w) =>
        match updateBass s w with
        | none => none
        | some (false, w) => some (false, s, w)
        | some (true, w) =>
          match updateTreble s w with
          | none => none
          | some (ok, w) => some (ok, s, w)

/-- `PT2314::init`. -/
def init (s : PT2314) (w : Wire) : Option (Bool × PT2314 × Wire) :=
  let s := { s with _volume := 0 }
  let s := { s with _attenuationL := 100 }
  let s := { s with _attenuationR := 100 }
  let s := { s with _mute := false }
  let s := { s with _loudness := false }
  let s := { s with _gain_index := 0 }
  let s := { s with _channel := 0 }
  let s := { s with _bass := 50 }
  let s := { s with _treble := 50 }
  updateAll s w

/-- `PT2314::volume`. -/
def volume (s : PT2314) (w : Wire) (v : Int) : Bool × PT2314 × Wire :=
  let s := { s with _volume := constrain v 0 100 }
  updateVolume s w

/-- `PT2314::muteOn`. The result of `updateAttenuation` is discarded. -/
def muteOn (s : PT2314) (w : Wire) : Bool × PT2314 × Wire :=
  let s := { s with _mute := true }
  let (_, w) := updateAttenuation s w
  updateVolume s w

/-- `PT2314::muteOff`. The result of `updateAttenuation` is discarded. -/
def muteOff (s : PT2314) (w : Wire) : Bool × PT2314 × Wire :=
  let s := { s with _mute := false }
  let (_, w) := updateAttenuation s w
  updateVolume s w

/-- `PT2314::channel`. -/
def channel (s : PT2314) (w : Wire) (ch : Int) (one_based : Bool) :
    Option (Bool × PT2314 × Wire) :=
  let s := { s with _channel_is_one_based := one_based }
  let ch := if s._channel_is_one_based then wrapInt (ch - 1) else ch
  let s := { s with _channel := constrain ch 0 3 }
  (updateAudioSwitch s w).map fun (ok, w) => (ok, s, w)

/-- `PT2314::loudnessOn`. -/
def loudnessOn (s : PT2314) (w : Wire) : Option (Bool × PT2314 × Wire) :=
  let s := { s with _loudness := true }
  (updateAudioSwitch s w).map fun (ok, w) => (ok, s, w)

/-- `PT2314::loudnessOff`. -/
def loudnessOff (s : PT2314) (w : Wire) : Option (Bool × PT2314 × Wire) :=
  let s := { s with _loudness := false }
  (updateAudioSwitch s w).map fun (ok, w) => (ok, s, w)

/-- `PT2314::attenuation`. -/
def attenuation (s : PT2314) (w : Wire) (l r : Int) : Bool × PT2314 × Wire :=
  let s := { s with _attenuationL := constrain l 0 100 }
  let s := { s with _attenuationR := constrain r 0 100 }
  let (ok, w) := updateAttenuation s w
  (ok, s, w)

/-- `PT2314::bass`. -/
def bass (s : PT2314) (w : Wire) (b : Int) : Option (Bool × PT2314 × Wire) :=
  let s := { s with _bass := constrain b 0 100 }
  (updateBass s w).map fun (ok, w) => (ok, s, w)

/-- `PT2314::treble`. -/
def treble (s : PT2314) (w : Wire) (t : Int) : Option (Bool × PT2314 × Wire) :=
  let s := { s with _treble := constrain t 0 100 }
  (updateTreble s w).map fun (ok, w) => (ok, s, w)

/-- The local table `gain_array_dB` of `getGain`. -/
def gain_array_dB : List ℚ := [0, 3.75, 7.5, 11.25]

/-- `PT2314::getGain`. -/
def getGain (s : PT2314) : Option ℚ :=
  index? gain_array_dB s._gain_index

/-- `PT2314::gain`. The diagnostic line evaluates `getGain()` before the register write. -/
def gain (s : PT2314) (w : Wire) (v : Int) : Option (Bool × PT2314 × Wire) := do
  let s := { s with _gain_index := constrain v 0 3 }
  let _ ← getGain s
  let (ok, w) ← updateAudioSwitch s w
  pure (ok, s, w)

/-- `PT2314::getChannel`. -/
def getChannel (s : PT2314) : Int :=
  if s._channel_is_one_based then wrapInt (s._channel + 1) else s._channel

/-- `PT2314::getVolume`. -/
def getVolume (s : PT2314) : Int := s._volume

/-- The local table `aSteps` of `getVolumedB`. -/
def aSteps : List ℚ := [0, -1.25, -2.5, -3.75, -5, -6.25, -7.5, -8.75]

/-- The local table `bSteps` of `getVolumedB`. -/
def bSteps : List ℚ := [0, -10, -20, -30, -40, -50, -60, -70]

/-- `PT2314::getVolumedB`. -/
def getVolumedB (s : PT2314) : Option ℚ := do
  let A := Int.land s._volume_pt2314 0b00000111
  let B := Int.shiftRight (Int.land s._volume_pt2314 0b00111000) 3
  let a ← index? aSteps A
  let b ← index? bSteps B
  pure (a + b)

/-- `PT2314::getBass`. -/
def getBass (s : PT2314) : Int := s._bass

/-- `PT2314::getTreble`. -/
def getTreble (s : PT2314) : Int := s._treble

/-- `PT2314::getAttenuationL`. -/
def getAttenuationL (s : PT2314) : Int := s._attenuationL

/-- `PT2314::getAttenuationR`. -/
def getAttenuationR (s : PT2314) : Int := s._attenuationR

/-- `PT2314::getLoudness`. -/
def getLoudness (s : PT2314) : Bool := s._loudness

end PT2314

/-! ## Definitions used to state the properties -/

namespace PT2314

/-- The byte `updateAttenuation` hands to the bus first (left channel). -/
def attenuationByteL (s : PT2314) : Nat :=
  toUChar (if s._mute then 0b11011111
    else toUInt (Int.lor 0b11000000 (toUInt (map s._attenuationL 0 100 0b00011111 0b00000000))))

/-- The byte `updateAttenuation` hands to the bus second (right channel). -/
def attenuationByteR (s : PT2314) : Nat :=
  toUChar (if s._mute then 0b11111111
    else toUInt (Int.lor 0b11100000 (toUInt (map s._attenuationR 0 100 0b00011111 0b00000000))))

/-- The 5-bit attenuation magnitude in the words of the specification:
`31 - floor(c*31/100)` where `c` is `a` clamped into `[0,100]`. -/
def attenuationMagnitude (a : Int) : Int :=
  31 - ⌊((min (max a 0) 100 * 31 : Int) : ℚ) / 100⌋

/-- The gain preset bits in the words of the specification: index 0 to 3 selects from
`0b00011000, 0b00010000, 0b00001000, 0b00000000`. -/
def gainPreset (g : Int) : Int :=
  ([0b00011000, 0b00010000, 0b00001000, 0b00000000] : List Int).getD g.toNat 0

/-- The audio-switch byte in the words of the specification: the base `0b01000000` or-ed
with the gain preset bits, with the loudness bit (`0` when loudness is on, `0b00000100`
when it is off) and with the channel. -/
def audioSwitchByte (g : Int) (L : Bool) (c : Int) : Int :=
  Int.lor (Int.lor (Int.lor 0b01000000 (gainPreset g)) (if L then 0 else 0b00000100)) c

end PT2314

/-- A bus on which every transmission succeeds and nothing has been sent yet. -/
def quietWire : Wire := { sent := [], endTransmission := fun _ => 0 }

/-- A bus on which the transmission that brings the record to `n` bytes fails with return
code 2 and all others succeed. -/
def failingWire (n : Nat) : Wire :=
  { sent := [], endTransmission := fun h => if h.length = n then 2 else 0 }

/-- A driver state with every field in range: unmuted, loudness on, gain index 2, channel 1
under one-based addressing, all percentage values 7. -/
def sampleState : PT2314 :=
  { _volume := 7, _attenuationL := 7, _attenuationR := 7, _mute := false, _loudness := true,
    _gain_index := 2, _channel := 1, _channel_is_one_based := true, _bass := 7, _treble := 7,
    _volume_pt2314 := 59 }

namespace PT2314

/-- The byte `updateVolume` hands to the bus. -/
def volumeByte (s : PT2314) : Nat := toUChar (volume_to_pt2314 s._volume)

/-- The byte `updateAudioSwitch` hands to the bus when its table read is in bounds. -/
def switchByte (s : PT2314) : Nat :=
  toUChar (audioSwitchByte s._gain_index s._loudness s._channel)

/-- The tone code `eq_to_pt2314 (map level 0 100 0 28)` of a bass or treble level (0 when
the table read is out of bounds). -/
def toneCode (level : Int) : Int := (eq_to_pt2314 (map level 0 100 0 28)).getD 0

/-- The byte `updateBass` hands to the bus when its table read is in bounds. -/
def bassByte (s : PT2314) : Nat := toUChar (toUInt (Int.lor 0x60 (toUInt (toneCode s._bass))))

/-- The byte `updateTreble` hands to the bus when its table read is in bounds. -/
def trebleByte (s : PT2314) : Nat :=
  toUChar (toUInt (Int.lor 0x70 (toUInt (toneCode s._treble))))

/-- The six bytes of a full resync in the order `updateAll` issues them: volume, left
attenuation, right attenuation, audio switch, bass, treble. -/
def resyncBytes (s : PT2314) : List Nat :=
  [volumeByte s, attenuationByteL s, attenuationByteR s, switchByte s, bassByte s, trebleByte s]

/-- Hand the bytes to the bus in order, stopping right after the first transmission that
fails; the result is true when no transmission failed. -/
def sendAll : Wire → List Nat → Bool × Wire
  | w, [] => (true, w)
  | w, b :: bs =>
    if w.endTransmission (w.sent ++ [b]) ≠ 0 then (false, { w with sent := w.sent ++ [b] })
    else sendAll { w with sent := w.sent ++ [b] } bs

/-- The range invariant of the data model: the percentage fields are in `[0,100]`, the gain
index and the internal channel in `[0,3]`. -/
def InRange (s : PT2314) : Prop :=
  (0 ≤ s._volume ∧ s._volume ≤ 100) ∧ (0 ≤ s._bass ∧ s._bass ≤ 100) ∧
  (0 ≤ s._treble ∧ s._treble ≤ 100) ∧ (0 ≤ s._attenuationL ∧ s._attenuationL ≤ 100) ∧
  (0 ≤ s._attenuationR ∧ s._attenuationR ≤ 100) ∧ (0 ≤ s._gain_index ∧ s._gain_index ≤ 3) ∧
  (0 ≤ s._channel ∧ s._channel ≤ 3)

/-- The range invariant together with the cached volume register being in `[0,63]`. -/
def WellFormed (s : PT2314) : Prop :=
  InRange s ∧ 0 ≤ s._volume_pt2314 ∧ s._volume_pt2314 ≤ 63

/-- A call of one public operation of the driver with its arguments. -/
inductive Op where
  | init
  | volume (v : Int)
  | muteOn
  | muteOff
  | channel (ch : Int) (one_based : Bool)
  | loudnessOn
  | loudnessOff
  | attenuation (l r : Int)
  | bass (b : Int)
  | treble (t : Int)
  | gain (v : Int)

/-- Perform one call on a driver state and a bus. -/
def Op.run : Op → PT2314 → Wire → Option (Bool × PT2314 × Wire)
  | .init, s, w => PT2314.init s w
  | .volume v, s, w => some (PT2314.volume s w v)
  | .muteOn, s, w => some (PT2314.muteOn s w)
  | .muteOff, s, w => some (PT2314.muteOff s w)
  | .channel ch one_based, s, w => PT2314.channel s w ch one_based
  | .loudnessOn, s, w => PT2314.loudnessOn s w
  | .loudnessOff, s, w => PT2314.loudnessOff s w
  | .attenuation l r, s, w => some (PT2314.attenuation s w l r)
  | .bass b, s, w => PT2314.bass s w b
  | .treble t, s, w => PT2314.treble s w t
  | .gain v, s, w => PT2314.gain s w v

/-- Perform a sequence of calls, each on the state and the bus the previous one left,
whatever the calls returned. -/
def runOps : List Op → PT2314 → Wire → Option (PT2314 × Wire)
  | [], s, w => some (s, w)
  | o :: os, s, w =>
    match o.run s w with
    | none => none
    | some (_, s', w') => runOps os s' w'

end PT2314

/-! ## Auxiliary facts about the arithmetic of the embedding -/

/-- The floor of an integer divided by one hundred is Lean's integer division. -/
theorem floor_div_hundred (n : Int) : ⌊(n : ℚ) / 100⌋ = n / 100 := by
  have h := Rat.floor_intCast_div_natCast n 100
  simpa using h

/-- Within the 32-bit range wrapping changes nothing. -/
theorem wrapInt_of_range (x : Int) (h0 : -2147483648 ≤ x) (h1 : x < 2147483648) :
    wrapInt x = x := by
  unfold wrapInt
  omega

/-- The Arduino `constrain` is the clamp `min (max amt low) high`. -/
theorem constrain_eq_clamp (amt low high : Int) (h : low ≤ high) :
    Arduino.constrain amt low high = min (max amt low) high := by
  unfold Arduino.constrain
  split_ifs <;> omega

/-- The clamp of an integer into `[low, high]` lies in that interval. -/
theorem clamp_mem (amt low high : Int) (h : low ≤ high) :
    low ≤ min (max amt low) high ∧ min (max amt low) high ≤ high := by
  omega

/-- On the percentage range the volume encoder is `63 - vol * 63 / 100`. -/
theorem volume_to_pt2314_eq (vol : Int) (h0 : 0 ≤ vol) (h1 : vol ≤ 100) :
    PT2314.volume_to_pt2314 vol = 63 - vol * 63 / 100 := by
  unfold PT2314.volume_to_pt2314
  rw [wrapInt_of_range (vol * 63) (by omega) (by omega),
    Int.tdiv_eq_ediv (by omega) (by omega)]
  apply wrapInt_of_range <;> omega

/-- On the percentage range, `map x 0 100 0 hi` is `x * hi / 100`. -/
theorem map_up_eq (x hi : Int) (h0 : 0 ≤ x) (hhi : 0 ≤ hi) :
    Arduino.map x 0 100 0 hi = x * hi / 100 := by
  unfold Arduino.map
  have h : 0 ≤ x * hi := Int.mul_nonneg h0 hhi
  simp only [sub_zero, add_zero]
  exact Int.tdiv_eq_ediv h (by omega)

/-- On the percentage range, `map x 0 100 31 0` is `31 - x * 31 / 100`. -/
theorem map_down_eq (x : Int) (h0 : 0 ≤ x) :
    Arduino.map x 0 100 31 0 = 31 - x * 31 / 100 := by
  unfold Arduino.map
  have e : (x - 0) * (0 - 31) = -(x * 31) := by ring
  have e2 : (100 : Int) - 0 = 100 := by norm_num
  rw [e, e2, Int.neg_tdiv, Int.tdiv_eq_ediv (by omega) (by omega)]
  omega

/-! ## The encoders -/

/-- C1: for every `vol` in `[0,100]`, `volume_to_pt2314 vol` is `63 - floor(vol*63/100)` and
lies in `[0,63]`; in particular the encoder sends 0 to 63 and 100 to 0. -/
theorem volume_to_pt2314_spec (vol : Int) (h0 : 0 ≤ vol) (h1 : vol ≤ 100) :
    PT2314.volume_to_pt2314 vol = 63 - ⌊((vol * 63 : Int) : ℚ) / 100⌋ ∧
    0 ≤ PT2314.volume_to_pt2314 vol ∧ PT2314.volume_to_pt2314 vol ≤ 63 ∧
    PT2314.volume_to_pt2314 0 = 63 ∧ PT2314.volume_to_pt2314 100 = 0 := by
  rw [floor_div_hundred, volume_to_pt2314_eq vol h0 h1]
  refine ⟨rfl, by omega, by omega, by decide, by decide⟩

/-- C1 at the concrete volume 37, whose register value is 40. -/
theorem volume_to_pt2314_spec_witness :
    (0 : Int) ≤ 37 ∧ (37 : Int) ≤ 100 ∧ PT2314.volume_to_pt2314 37 = 40 := by
  refine ⟨by decide, by decide, ?_⟩
  have h := (volume_to_pt2314_spec 37 (by decide) (by decide)).1
  rw [h, floor_div_hundred]
  decide

/-- A value that already is a byte is handed to the bus unchanged. -/
theorem toUChar_cast (x : Int) (h0 : 0 ≤ x) (h1 : x < 256) : (toUChar x : Int) = x := by
  unfold toUChar
  rw [Int.toNat_of_nonneg (by omega)]
  omega

/-- C2: for every integer `v` and every bus, after `volume v` the stored volume (the value
of `getVolume`) is `v` clamped into `[0,100]`, and exactly one byte is handed to the bus, the
encoding `63 - floor(c*63/100)` of the clamped value `c`. -/
theorem volume_clamps_before_encoding (s : PT2314) (w : Wire) (v : Int) :
    ∃ (ok : Bool) (s' : PT2314) (w' : Wire) (byte : Nat), PT2314.volume s w v = (ok, s', w') ∧
      s'._volume = min (max v 0) 100 ∧
      PT2314.getVolume s' = min (max v 0) 100 ∧
      w'.sent = w.sent ++ [byte] ∧
      (byte : Int) = 63 - ⌊((min (max v 0) 100 * 63 : Int) : ℚ) / 100⌋ := by
  have hc := constrain_eq_clamp v 0 100 (by decide)
  have hm := clamp_mem v 0 100 (by decide)
  have he := volume_to_pt2314_eq (min (max v 0) 100) hm.1 hm.2
  refine ⟨_, _, _, toUChar (PT2314.volume_to_pt2314 (Arduino.constrain v 0 100)), rfl,
    hc, hc, rfl, ?_⟩
  rw [floor_div_hundred, hc, he]
  apply toUChar_cast <;> omega

/-- C3: on the indices 0 to 28 `eq_to_pt2314` returns the entry of the literal 29-entry
table, and above 28 it returns 0. -/
theorem eq_to_pt2314_table (i : Int) :
    (0 ≤ i → i ≤ 28 →
      ∃ r : Int, ([0, 0, 1, 1, 2, 2, 3, 3, 4, 4, 5, 5, 6, 6, 7, 14, 14, 13, 13, 12, 12,
          11, 11, 10, 10, 9, 9, 8, 8] : List Int).get? i.toNat = some r ∧
        PT2314.eq_to_pt2314 i = some r) ∧
    (28 < i → PT2314.eq_to_pt2314 i = some 0) := by
  constructor
  · intro h0 h1
    interval_cases i <;> exact ⟨_, rfl, rfl⟩
  · intro h
    unfold PT2314.eq_to_pt2314
    rw [if_pos h]

/-- C3 at index 15 (the first boost entry, 14) and at the out-of-table index 29. -/
theorem eq_to_pt2314_table_witness :
    PT2314.eq_to_pt2314 15 = some 14 ∧ PT2314.eq_to_pt2314 29 = some 0 := by
  obtain ⟨r, hr, he⟩ := (eq_to_pt2314_table 15).1 (by decide) (by decide)
  refine ⟨?_, (eq_to_pt2314_table 29).2 (by decide)⟩
  have h15 : r = 14 := by
    have : some (14 : Int) = some r := hr
    exact (Option.some.inj this).symm
  rw [he, h15]

/-- Every table index from 0 to 28 yields a tone code between 0 and 14, and or-ing that code
under the bass prefix `0x60` or the treble prefix `0x70` gives a byte that reaches the bus
unchanged and equals prefix plus code. -/
theorem eq_to_pt2314_code (i : Int) (h0 : 0 ≤ i) (h1 : i ≤ 28) :
    ∃ e : Int, PT2314.eq_to_pt2314 i = some e ∧ 0 ≤ e ∧ e ≤ 14 ∧
      (toUChar (toUInt (Int.lor 0x60 (toUInt e))) : Int) = Int.lor 0x60 e ∧
      (toUChar (toUInt (Int.lor 0x70 (toUInt e))) : Int) = Int.lor 0x70 e ∧
      Int.lor 0x60 e = 0x60 + e ∧ Int.lor 0x70 e = 0x70 + e := by
  interval_cases i <;>
    exact ⟨_, rfl, by decide, by decide, by decide, by decide, by decide, by decide⟩

/-- What `updateBass` does once the table lookup has produced the code `e`. -/
theorem updateBass_of_code (s : PT2314) (w : Wire) (e : Int)
    (he : PT2314.eq_to_pt2314 (Arduino.map s._bass 0 100 0 28) = some e) :
    PT2314.updateBass s w =
      some (decide (w.endTransmission
          (w.sent ++ [toUChar (toUInt (Int.lor 0x60 (toUInt e)))]) = 0),
        { w with sent := w.sent ++ [toUChar (toUInt (Int.lor 0x60 (toUInt e)))] }) := by
  unfold PT2314.updateBass
  rw [he]
  rfl

/-- What `updateTreble` does once the table lookup has produced the code `e`. -/
theorem updateTreble_of_code (s : PT2314) (w : Wire) (e : Int)
    (he : PT2314.eq_to_pt2314 (Arduino.map s._treble 0 100 0 28) = some e) :
    PT2314.updateTreble s w =
      some (decide (w.endTransmission
          (w.sent ++ [toUChar (toUInt (Int.lor 0x70 (toUInt e)))]) = 0),
        { w with sent := w.sent ++ [toUChar (toUInt (Int.lor 0x70 (toUInt e)))] }) := by
  unfold PT2314.updateTreble
  rw [he]
  rfl

/-- A tone level in `[0,100]` is rescaled to a table index in `[0,28]`. -/
theorem tone_index_range (c : Int) (h0 : 0 ≤ c) (h1 : c ≤ 100) :
    Arduino.map c 0 100 0 28 = c * 28 / 100 ∧ 0 ≤ c * 28 / 100 ∧ c * 28 / 100 ≤ 28 := by
  refine ⟨map_up_eq c 28 h0 (by decide), ?_, ?_⟩ <;> omega

/-- C4: for every integer `b`, with `c` the clamp of `b` into `[0,100]`, the Arduino rescale
`map c 0 100 0 28` is `floor(c*28/100)`, the table has a code `e` at that index, `bass b`
hands the bus the single byte `0x60 | e` and `treble b` the single byte `0x70 | e`. Level 0
uses index 0 (bytes 0x60, 0x70), level 100 index 28 (bytes 0x68, 0x78) and level 50 index 14
(bytes 0x67, 0x77). -/
theorem bass_treble_bytes (s : PT2314) (w : Wire) (b : Int) :
    (∃ e : Int,
      Arduino.map (min (max b 0) 100) 0 100 0 28
        = ⌊((min (max b 0) 100 * 28 : Int) : ℚ) / 100⌋ ∧
      PT2314.eq_to_pt2314 ⌊((min (max b 0) 100 * 28 : Int) : ℚ) / 100⌋ = some e ∧
      (∃ (ok : Bool) (s' : PT2314) (w' : Wire) (byte : Nat),
        PT2314.bass s w b = some (ok, s', w') ∧ w'.sent = w.sent ++ [byte] ∧
        (byte : Int) = Int.lor 0x60 e) ∧
      (∃ (ok : Bool) (s' : PT2314) (w' : Wire) (byte : Nat),
        PT2314.treble s w b = some (ok, s', w') ∧ w'.sent = w.sent ++ [byte] ∧
        (byte : Int) = Int.lor 0x70 e)) ∧
    Arduino.map 0 0 100 0 28 = 0 ∧ Arduino.map 100 0 100 0 28 = 28 ∧
    Arduino.map 50 0 100 0 28 = 14 ∧
    (PT2314.bass s w 0).map (fun r => r.2.2.sent) = some (w.sent ++ [0x60]) ∧
    (PT2314.treble s w 0).map (fun r => r.2.2.sent) = some (w.sent ++ [0x70]) ∧
    (PT2314.bass s w 100).map (fun r => r.2.2.sent) = some (w.sent ++ [0x68]) ∧
    (PT2314.treble s w 100).map (fun r => r.2.2.sent) = some (w.sent ++ [0x78]) ∧
    (PT2314.bass s w 50).map (fun r => r.2.2.sent) = some (w.sent ++ [0x67]) ∧
    (PT2314.treble s w 50).map (fun r => r.2.2.sent) = some (w.sent ++ [0x77]) := by
  refine ⟨?_, by decide, by decide, by decide, rfl, rfl, rfl, rfl, rfl, rfl⟩
  have hc := constrain_eq_clamp b 0 100 (by decide)
  have hm := clamp_mem b 0 100 (by decide)
  obtain ⟨hmap, hi0, hi1⟩ := tone_index_range (min (max b 0) 100) hm.1 hm.2
  obtain ⟨e, he, -, -, hb, ht, -, -⟩ :=
    eq_to_pt2314_code (min (max b 0) 100 * 28 / 100) hi0 hi1
  rw [floor_div_hundred]
  refine ⟨e, hmap, he, ?_, ?_⟩
  · have hb' : PT2314.eq_to_pt2314
        (Arduino.map ({ s with _bass := Arduino.constrain b 0 100 } : PT2314)._bass
          0 100 0 28) = some e := by
      show PT2314.eq_to_pt2314 (Arduino.map (Arduino.constrain b 0 100) 0 100 0 28) = some e
      rw [hc, hmap, he]
    have hrun : PT2314.bass s w b = some
        (decide (w.endTransmission
            (w.sent ++ [toUChar (toUInt (Int.lor 0x60 (toUInt e)))]) = 0),
          { s with _bass := Arduino.constrain b 0 100 },
          { w with sent := w.sent ++ [toUChar (toUInt (Int.lor 0x60 (toUInt e)))] }) := by
      show Option.map _ (PT2314.updateBass _ w) = _
      rw [updateBass_of_code _ w e hb']
      rfl
    exact ⟨_, _, _, _, hrun, rfl, hb⟩
  · have ht' : PT2314.eq_to_pt2314
        (Arduino.map ({ s with _treble := Arduino.constrain b 0 100 } : PT2314)._treble
          0 100 0 28) = some e := by
      show PT2314.eq_to_pt2314 (Arduino.map (Arduino.constrain b 0 100) 0 100 0 28) = some e
      rw [hc, hmap, he]
    have hrun : PT2314.treble s w b = some
        (decide (w.endTransmission
            (w.sent ++ [toUChar (toUInt (Int.lor 0x70 (toUInt e)))]) = 0),
          { s with _treble := Arduino.constrain b 0 100 },
          { w with sent := w.sent ++ [toUChar (toUInt (Int.lor 0x70 (toUInt e)))] }) := by
      show Option.map _ (PT2314.updateTreble _ w) = _
      rw [updateTreble_of_code _ w e ht']
      rfl
    exact ⟨_, _, _, _, hrun, rfl, ht⟩

/-! ## The attenuation pair -/

/-- The control flow of `updateAttenuation`: the second byte is attempted only after the
first transmission succeeded, and the result is true only if both succeeded. -/
theorem updateAttenuation_run (s : PT2314) (w : Wire) :
    PT2314.updateAttenuation s w =
      if w.endTransmission (w.sent ++ [s.attenuationByteL]) ≠ 0 then
        (false, { w with sent := w.sent ++ [s.attenuationByteL] })
      else if w.endTransmission (w.sent ++ [s.attenuationByteL, s.attenuationByteR]) ≠ 0 then
        (false, { w with sent := w.sent ++ [s.attenuationByteL, s.attenuationByteR] })
      else (true, { w with sent := w.sent ++ [s.attenuationByteL, s.attenuationByteR] }) := by
  unfold PT2314.updateAttenuation PT2314.attenuationByteL PT2314.attenuationByteR
    PT2314.writeI2CChar
  cases s._mute <;> simp [List.append_assoc]

/-- A magnitude in `[0,31]` or-ed under the left prefix `0xC0` or the right prefix `0xE0`
reaches the bus unchanged and equals prefix plus magnitude. -/
theorem attenuation_prefix_code (m : Int) (h0 : 0 ≤ m) (h1 : m ≤ 31) :
    (toUChar (toUInt (Int.lor 0b11000000 (toUInt m))) : Int) = Int.lor 0xC0 m ∧
    (toUChar (toUInt (Int.lor 0b11100000 (toUInt m))) : Int) = Int.lor 0xE0 m ∧
    Int.lor 0xC0 m = 0xC0 + m ∧ Int.lor 0xE0 m = 0xE0 + m := by
  interval_cases m <;> decide

/-- The specification's magnitude is `31 - c * 31 / 100` on the clamped value and lies in
`[0,31]`, and it is the value of the Arduino rescale `map c 0 100 31 0`. -/
theorem attenuationMagnitude_eq (a : Int) :
    PT2314.attenuationMagnitude a = 31 - min (max a 0) 100 * 31 / 100 ∧
    Arduino.map (min (max a 0) 100) 0 100 0b00011111 0b00000000
      = PT2314.attenuationMagnitude a ∧
    0 ≤ PT2314.attenuationMagnitude a ∧ PT2314.attenuationMagnitude a ≤ 31 := by
  have hm := clamp_mem a 0 100 (by decide)
  have e : PT2314.attenuationMagnitude a = 31 - min (max a 0) 100 * 31 / 100 := by
    unfold PT2314.attenuationMagnitude
    rw [floor_div_hundred]
  refine ⟨e, ?_, ?_, ?_⟩
  · rw [e]
    exact map_down_eq _ hm.1
  · rw [e]; omega
  · rw [e]; omega

/-- While muted the two attenuation bytes are the fixed sentinels. -/
theorem attenuationByte_muted (s : PT2314) (hm : s._mute = true) :
    s.attenuationByteL = 0b11011111 ∧ s.attenuationByteR = 0b11111111 := by
  unfold PT2314.attenuationByteL PT2314.attenuationByteR
  rw [hm]
  exact ⟨rfl, rfl⟩

/-- While unmuted the two attenuation bytes of the state reached by `attenuation l r` are
the prefixes or-ed with the magnitudes of `l` and `r`. -/
theorem attenuationByte_unmuted (s : PT2314) (l r : Int) (hm : s._mute = false) :
    (({ s with _attenuationL := Arduino.constrain l 0 100,
               _attenuationR := Arduino.constrain r 0 100 } : PT2314).attenuationByteL : Int)
      = Int.lor 0xC0 (PT2314.attenuationMagnitude l) ∧
    (({ s with _attenuationL := Arduino.constrain l 0 100,
               _attenuationR := Arduino.constrain r 0 100 } : PT2314).attenuationByteR : Int)
      = Int.lor 0xE0 (PT2314.attenuationMagnitude r) := by
  obtain ⟨-, hl, hl0, hl1⟩ := attenuationMagnitude_eq l
  obtain ⟨-, hr, hr0, hr1⟩ := attenuationMagnitude_eq r
  unfold PT2314.attenuationByteL PT2314.attenuationByteR
  simp only [hm, constrain_eq_clamp _ 0 100 (by decide), hl, hr]
  exact ⟨(attenuation_prefix_code _ hl0 hl1).1, (attenuation_prefix_code _ hr0 hr1).2.1⟩

/-- The operation `attenuation` stores the clamped pair and then runs `updateAttenuation`. -/
theorem attenuation_run (s : PT2314) (w : Wire) (l r : Int) :
    PT2314.attenuation s w l r =
      ((PT2314.updateAttenuation { s with _attenuationL := Arduino.constrain l 0 100,
                                          _attenuationR := Arduino.constrain r 0 100 } w).1,
        { s with _attenuationL := Arduino.constrain l 0 100,
                 _attenuationR := Arduino.constrain r 0 100 },
        (PT2314.updateAttenuation { s with _attenuationL := Arduino.constrain l 0 100,
                                           _attenuationR := Arduino.constrain r 0 100 } w).2) :=
  rfl

/-- On a bus whose transmissions all succeed `updateAttenuation` hands over both bytes and
returns true. -/
theorem updateAttenuation_ok (s : PT2314) (w : Wire) (hbus : ∀ h, w.endTransmission h = 0) :
    PT2314.updateAttenuation s w =
      (true, { w with sent := w.sent ++ [s.attenuationByteL, s.attenuationByteR] }) := by
  rw [updateAttenuation_run]
  simp [hbus]

/-- Unmuted and on a succeeding bus, `attenuation l r` returns true after handing over the
two prefixed magnitudes. -/
theorem attenuation_ok (s : PT2314) (w : Wire) (l r : Int) (hm : s._mute = false)
    (hbus : ∀ h, w.endTransmission h = 0) :
    ∃ bl br : Nat,
      PT2314.attenuation s w l r =
        (true, { s with _attenuationL := Arduino.constrain l 0 100,
                        _attenuationR := Arduino.constrain r 0 100 },
          { w with sent := w.sent ++ [bl, br] }) ∧
      (bl : Int) = Int.lor 0xC0 (PT2314.attenuationMagnitude l) ∧
      (br : Int) = Int.lor 0xE0 (PT2314.attenuationMagnitude r) := by
  obtain ⟨hl, hr⟩ := attenuationByte_unmuted s l r hm
  refine ⟨_, _, ?_, hl, hr⟩
  rw [attenuation_run, updateAttenuation_ok _ w hbus]

/-- C5: unmuted and with every bus write succeeding, `attenuation l r` writes exactly two
bytes, `0xC0 | m(l)` then `0xE0 | m(r)`, where `m(a) = 31 - floor(c*31/100)` for the clamp
`c` of `a` is the value of `map c 0 100 31 0` and lies in `[0,31]`; `attenuation 0 0` writes
0xDF then 0xFF (magnitude 31) and `attenuation 100 100` writes 0xC0 then 0xE0 (magnitude 0). -/
theorem attenuation_unmuted_bytes (s : PT2314) (w : Wire) (l r : Int) (hm : s._mute = false)
    (hbus : ∀ h, w.endTransmission h = 0) :
    (∀ a : Int,
      Arduino.map (min (max a 0) 100) 0 100 31 0 = PT2314.attenuationMagnitude a ∧
      0 ≤ PT2314.attenuationMagnitude a ∧ PT2314.attenuationMagnitude a ≤ 31) ∧
    (∃ (s' : PT2314) (w' : Wire) (bl br : Nat),
      PT2314.attenuation s w l r = (true, s', w') ∧ w'.sent = w.sent ++ [bl, br] ∧
      (bl : Int) = Int.lor 0xC0 (PT2314.attenuationMagnitude l) ∧
      (br : Int) = Int.lor 0xE0 (PT2314.attenuationMagnitude r)) ∧
    PT2314.attenuationMagnitude 0 = 31 ∧ PT2314.attenuationMagnitude 100 = 0 ∧
    (PT2314.attenuation s w 0 0).2.2.sent = w.sent ++ [0xDF, 0xFF] ∧
    (PT2314.attenuation s w 100 100).2.2.sent = w.sent ++ [0xC0, 0xE0] := by
  have m0 : PT2314.attenuationMagnitude 0 = 31 := by
    rw [(attenuationMagnitude_eq 0).1]; decide
  have m100 : PT2314.attenuationMagnitude 100 = 0 := by
    rw [(attenuationMagnitude_eq 100).1]; decide
  refine ⟨fun a => (attenuationMagnitude_eq a).2, ?_, m0, m100, ?_, ?_⟩
  · obtain ⟨bl, br, hrun, hl, hr⟩ := attenuation_ok s w l r hm hbus
    exact ⟨_, _, bl, br, hrun, rfl, hl, hr⟩
  · obtain ⟨bl, br, hrun, hl, hr⟩ := attenuation_ok s w 0 0 hm hbus
    rw [m0] at hl hr
    have el : bl = 0xDF := by
      have h : Int.lor 0xC0 31 = 0xDF := by decide
      rw [h] at hl
      exact_mod_cast hl
    have er : br = 0xFF := by
      have h : Int.lor 0xE0 31 = 0xFF := by decide
      rw [h] at hr
      exact_mod_cast hr
    rw [hrun, el, er]
  · obtain ⟨bl, br, hrun, hl, hr⟩ := attenuation_ok s w 100 100 hm hbus
    rw [m100] at hl hr
    have el : bl = 0xC0 := by
      have h : Int.lor 0xC0 0 = 0xC0 := by decide
      rw [h] at hl
      exact_mod_cast hl
    have er : br = 0xE0 := by
      have h : Int.lor 0xE0 0 = 0xE0 := by decide
      rw [h] at hr
      exact_mod_cast hr
    rw [hrun, el, er]

/-- C5 on the sample state and the quiet bus: both bytes of `attenuation 0 0` and of
`attenuation 100 100`. -/
theorem attenuation_unmuted_bytes_witness :
    sampleState._mute = false ∧ (∀ h, quietWire.endTransmission h = 0) ∧
    (PT2314.attenuation sampleState quietWire 0 0).2.2.sent = [0xDF, 0xFF] ∧
    (PT2314.attenuation sampleState quietWire 100 100).2.2.sent = [0xC0, 0xE0] :=
  ⟨rfl, fun _ => rfl,
    (attenuation_unmuted_bytes sampleState quietWire 0 0 rfl (fun _ => rfl)).2.2.2.2.1,
    (attenuation_unmuted_bytes sampleState quietWire 0 0 rfl (fun _ => rfl)).2.2.2.2.2⟩

/-- The operation `updateVolume` caches the encoded volume and hands it to the bus. -/
theorem updateVolume_run (s : PT2314) (w : Wire) :
    PT2314.updateVolume s w =
      (decide (w.endTransmission
          (w.sent ++ [toUChar (PT2314.volume_to_pt2314 s._volume)]) = 0),
        { s with _volume_pt2314 := PT2314.volume_to_pt2314 s._volume },
        { w with sent := w.sent ++ [toUChar (PT2314.volume_to_pt2314 s._volume)] }) :=
  rfl

/-- The operation `muteOn` sets the flag, runs `updateAttenuation` and, whatever that
returned, runs `updateVolume`. -/
theorem muteOn_run (s : PT2314) (w : Wire) :
    PT2314.muteOn s w =
      PT2314.updateVolume { s with _mute := true }
        (PT2314.updateAttenuation { s with _mute := true } w).2 :=
  rfl

/-- The operation `updateAttenuation` leaves the behaviour of the bus as it was. -/
theorem updateAttenuation_endTransmission (s : PT2314) (w : Wire) :
    (PT2314.updateAttenuation s w).2.endTransmission = w.endTransmission := by
  rw [updateAttenuation_run]
  split_ifs <;> rfl

/-- C6: on a succeeding bus the first two bytes `muteOn` writes are the fixed sentinels
0b11011111 and 0b11111111 whatever attenuation pair is stored (the volume byte follows),
and while muted `attenuation l r` writes those two sentinels for every `l` and `r`. After
`attenuation 100 100`, whose derived bytes are 0xC0 and 0xE0, `muteOn` writes the sentinels
and not those derived bytes; a derived byte has the value of its sentinel only when the
magnitude is 31. -/
theorem mute_sentinel_bytes (s : PT2314) (w : Wire) (hbus : ∀ h, w.endTransmission h = 0) :
    (PT2314.muteOn s w).2.2.sent
      = w.sent ++ [0b11011111, 0b11111111] ++ [toUChar (PT2314.volume_to_pt2314 s._volume)] ∧
    (∀ l r : Int, s._mute = true →
      (PT2314.attenuation s w l r).2.2.sent = w.sent ++ [0b11011111, 0b11111111]) ∧
    (∃ vb : Nat,
      (PT2314.muteOn (PT2314.attenuation s w 100 100).2.1
          (PT2314.attenuation s w 100 100).2.2).2.2.sent
        = (PT2314.attenuation s w 100 100).2.2.sent ++ [0b11011111, 0b11111111] ++ [vb]) ∧
    Int.lor 0xC0 (PT2314.attenuationMagnitude 100) ≠ 0b11011111 ∧
    Int.lor 0xE0 (PT2314.attenuationMagnitude 100) ≠ 0b11111111 ∧
    (∀ a : Int, (Int.lor 0xC0 (PT2314.attenuationMagnitude a) = 0b11011111 ↔
        PT2314.attenuationMagnitude a = 31) ∧
      (Int.lor 0xE0 (PT2314.attenuationMagnitude a) = 0b11111111 ↔
        PT2314.attenuationMagnitude a = 31)) := by
  have key : ∀ (t : PT2314) (u : Wire), (∀ h, u.endTransmission h = 0) →
      (PT2314.muteOn t u).2.2.sent
        = u.sent ++ [0b11011111, 0b11111111]
            ++ [toUChar (PT2314.volume_to_pt2314 t._volume)] := by
    intro t u hu
    obtain ⟨eL, eR⟩ := attenuationByte_muted { t with _mute := true } rfl
    rw [muteOn_run, updateAttenuation_ok _ u hu, updateVolume_run, eL, eR]
  have m100 : PT2314.attenuationMagnitude 100 = 0 := by
    rw [(attenuationMagnitude_eq 100).1]; decide
  refine ⟨key s w hbus, ?_, ⟨_, key _ _ ?_⟩, ?_, ?_, ?_⟩
  · intro l r hm
    have hm' : ({ s with _attenuationL := Arduino.constrain l 0 100,
                         _attenuationR := Arduino.constrain r 0 100 } : PT2314)._mute = true :=
      hm
    obtain ⟨eL, eR⟩ := attenuationByte_muted _ hm'
    rw [attenuation_run, updateAttenuation_ok _ w hbus, eL, eR]
  · intro h
    rw [attenuation_run, updateAttenuation_endTransmission]
    exact hbus h
  · rw [m100]; decide
  · rw [m100]; decide
  · intro a
    obtain ⟨-, -, h0, h1⟩ := attenuationMagnitude_eq a
    generalize PT2314.attenuationMagnitude a = m at h0 h1
    interval_cases m <;> decide

/-- C6 on the quiet bus: `muteOn` in the sample state (stored attenuation 7, 7) writes the
two sentinels and then the volume byte 59. -/
theorem mute_sentinel_bytes_witness :
    (∀ h, quietWire.endTransmission h = 0) ∧
    (PT2314.muteOn sampleState quietWire).2.2.sent = [0b11011111, 0b11111111, 59] :=
  ⟨fun _ => rfl, (mute_sentinel_bytes sampleState quietWire (fun _ => rfl)).1⟩

/-- C10: in every state, muted or not, and for all `l`, `r` there are two bytes `b1`, `b2`,
fixed before the bus answers, such that on every bus: if the write of `b1` fails then
`attenuation l r` hands the bus exactly `b1` and returns false; if it succeeds and the write
of `b2` fails the operation returns false after handing over `b1`, `b2`; and the operation
returns true exactly when both writes succeed. -/
theorem attenuation_failure (s : PT2314) (l r : Int) :
    ∃ b1 b2 : Nat, ∀ w : Wire,
      (w.endTransmission (w.sent ++ [b1]) ≠ 0 →
        (PT2314.attenuation s w l r).1 = false ∧
        (PT2314.attenuation s w l r).2.2.sent = w.sent ++ [b1]) ∧
      (w.endTransmission (w.sent ++ [b1]) = 0 →
        w.endTransmission (w.sent ++ [b1, b2]) ≠ 0 →
        (PT2314.attenuation s w l r).1 = false ∧
        (PT2314.attenuation s w l r).2.2.sent = w.sent ++ [b1, b2]) ∧
      ((PT2314.attenuation s w l r).1 = true ↔
        w.endTransmission (w.sent ++ [b1]) = 0 ∧
        w.endTransmission (w.sent ++ [b1, b2]) = 0) := by
  refine ⟨({ s with _attenuationL := Arduino.constrain l 0 100,
                    _attenuationR := Arduino.constrain r 0 100 } : PT2314).attenuationByteL,
    ({ s with _attenuationL := Arduino.constrain l 0 100,
              _attenuationR := Arduino.constrain r 0 100 } : PT2314).attenuationByteR, ?_⟩
  intro w
  rw [attenuation_run, updateAttenuation_run]
  split_ifs with h1 h2
  · exact ⟨fun _ => ⟨rfl, rfl⟩, fun h => absurd h h1, by simp [h1]⟩
  · push_neg at h1
    exact ⟨fun h => absurd h1 h, fun _ _ => ⟨rfl, rfl⟩, by simp [h2]⟩
  · push_neg at h1 h2
    exact ⟨fun h => absurd h1 h, fun _ h => absurd h2 h, by simp [h1, h2]⟩

/-- C10 on a bus whose first transmission fails: `attenuation 3 4` in the sample state
returns false and exactly one byte has been handed over. -/
theorem attenuation_failure_witness :
    (PT2314.attenuation sampleState (failingWire 1) 3 4).1 = false ∧
    (PT2314.attenuation sampleState (failingWire 1) 3 4).2.2.sent.length = 1 := by
  obtain ⟨b1, b2, h⟩ := attenuation_failure sampleState 3 4
  have hfail : (failingWire 1).endTransmission ((failingWire 1).sent ++ [b1]) ≠ 0 := by
    simp [failingWire]
  obtain ⟨hret, hsent⟩ := (h (failingWire 1)).1 hfail
  refine ⟨hret, ?_⟩
  rw [hsent]
  rfl

/-! ## The audio-switch byte -/

/-- With the index in `[0,3]` the read of `gain_array` succeeds and yields the preset. -/
theorem index_gain_array (g : Int) (h0 : 0 ≤ g) (h1 : g ≤ 3) :
    index? PT2314.gain_array g = some (PT2314.gainPreset g) := by
  interval_cases g <;> rfl

/-- With the gain index in `[0,3]` the byte computed by `updateAudioSwitch` is the
specification's byte of the state's gain index, loudness flag and channel. -/
theorem audioByte_eq (s : PT2314) (h0 : 0 ≤ s._gain_index) (h1 : s._gain_index ≤ 3) :
    PT2314.audioByte s
      = some (PT2314.audioSwitchByte s._gain_index s._loudness s._channel) := by
  unfold PT2314.audioByte PT2314.audioSwitchByte
  rw [index_gain_array _ h0 h1]
  cases s._loudness <;> rfl

/-- With the gain index in `[0,3]`, `updateAudioSwitch` hands the bus the specification's
byte and reports whether that transmission succeeded. -/
theorem updateAudioSwitch_run (s : PT2314) (w : Wire) (h0 : 0 ≤ s._gain_index)
    (h1 : s._gain_index ≤ 3) :
    PT2314.updateAudioSwitch s w =
      some (decide (w.endTransmission (w.sent ++
          [toUChar (PT2314.audioSwitchByte s._gain_index s._loudness s._channel)]) = 0),
        { w with sent := w.sent ++
          [toUChar (PT2314.audioSwitchByte s._gain_index s._loudness s._channel)] }) := by
  unfold PT2314.updateAudioSwitch
  rw [audioByte_eq s h0 h1]
  rfl

/-- For gain index and channel in `[0,3]` the specification's byte is a byte, equals the
sum of its fields, and the fields have no bit in common. -/
theorem audioSwitchByte_fields (g : Int) (L : Bool) (c : Int) (hg0 : 0 ≤ g) (hg1 : g ≤ 3)
    (hc0 : 0 ≤ c) (hc1 : c ≤ 3) :
    (toUChar (PT2314.audioSwitchByte g L c) : Int) = PT2314.audioSwitchByte g L c ∧
    PT2314.audioSwitchByte g L c
      = 0x40 + PT2314.gainPreset g + (if L then 0 else 4) + c ∧
    Int.land 0b01000000 (PT2314.gainPreset g) = 0 ∧ Int.land 0b01000000 0b00000100 = 0 ∧
    Int.land 0b01000000 c = 0 ∧ Int.land (PT2314.gainPreset g) 0b00000100 = 0 ∧
    Int.land (PT2314.gainPreset g) c = 0 ∧ Int.land 0b00000100 c = 0 := by
  interval_cases g <;> interval_cases c <;> cases L <;> decide

/-- The clamp of the Arduino macro lies in its interval. -/
theorem constrain_mem (amt low high : Int) (h : low ≤ high) :
    low ≤ Arduino.constrain amt low high ∧ Arduino.constrain amt low high ≤ high := by
  rw [constrain_eq_clamp amt low high h]
  exact clamp_mem amt low high h

/-- With the index in `[0,3]` the read of `gain_array_dB` in `getGain` succeeds and yields
the entry of the literal table 0, 3.75, 7.5, 11.25. -/
theorem getGain_eq (s : PT2314) (h0 : 0 ≤ s._gain_index) (h1 : s._gain_index ≤ 3) :
    ∃ q : ℚ, ([0, 3.75, 7.5, 11.25] : List ℚ).get? s._gain_index.toNat = some q ∧
      PT2314.getGain s = some q := by
  unfold PT2314.getGain
  generalize s._gain_index = g at h0 h1
  interval_cases g <;> exact ⟨_, rfl, rfl⟩

/-- The operation `gain` stores the clamped index and writes the audio-switch byte of the
new state; it never reads a table outside its bounds. -/
theorem gain_run (s : PT2314) (w : Wire) (v : Int) :
    PT2314.gain s w v =
      some (decide (w.endTransmission (w.sent ++
          [toUChar (PT2314.audioSwitchByte (Arduino.constrain v 0 3) s._loudness
            s._channel)]) = 0),
        { s with _gain_index := Arduino.constrain v 0 3 },
        { w with sent := w.sent ++
          [toUChar (PT2314.audioSwitchByte (Arduino.constrain v 0 3) s._loudness
            s._channel)] }) := by
  obtain ⟨h0, h1⟩ := constrain_mem v 0 3 (by decide)
  obtain ⟨q, -, hq⟩ := getGain_eq { s with _gain_index := Arduino.constrain v 0 3 } h0 h1
  have hu := updateAudioSwitch_run { s with _gain_index := Arduino.constrain v 0 3 } w h0 h1
  simp only [PT2314.gain, hq, hu]
  rfl

/-- The operation `channel` stores the addressing mode and the clamped internal channel and
writes the audio-switch byte of the new state. -/
theorem channel_run (s : PT2314) (w : Wire) (ch : Int) (one_based : Bool)
    (h0 : 0 ≤ s._gain_index) (h1 : s._gain_index ≤ 3) :
    PT2314.channel s w ch one_based =
      some (decide (w.endTransmission (w.sent ++
          [toUChar (PT2314.audioSwitchByte s._gain_index s._loudness
            (Arduino.constrain (if one_based then wrapInt (ch - 1) else ch) 0 3))]) = 0),
        { s with _channel_is_one_based := one_based,
                 _channel := Arduino.constrain (if one_based then wrapInt (ch - 1) else ch) 0 3 },
        { w with sent := w.sent ++
          [toUChar (PT2314.audioSwitchByte s._gain_index s._loudness
            (Arduino.constrain (if one_based then wrapInt (ch - 1) else ch) 0 3))] }) := by
  have hu := updateAudioSwitch_run
    { s with _channel_is_one_based := one_based,
             _channel := Arduino.constrain (if one_based then wrapInt (ch - 1) else ch) 0 3 }
    w h0 h1
  show Option.map _ (PT2314.updateAudioSwitch _ w) = _
  exact (congrArg _ hu).trans rfl

/-- The operation `loudnessOn` sets the flag and writes the audio-switch byte of the new
state. -/
theorem loudnessOn_run (s : PT2314) (w : Wire) (h0 : 0 ≤ s._gain_index)
    (h1 : s._gain_index ≤ 3) :
    PT2314.loudnessOn s w =
      some (decide (w.endTransmission (w.sent ++
          [toUChar (PT2314.audioSwitchByte s._gain_index true s._channel)]) = 0),
        { s with _loudness := true },
        { w with sent := w.sent ++
          [toUChar (PT2314.audioSwitchByte s._gain_index true s._channel)] }) := by
  have hu := updateAudioSwitch_run { s with _loudness := true } w h0 h1
  show Option.map _ (PT2314.updateAudioSwitch _ w) = _
  exact (congrArg _ hu).trans rfl

/-- The operation `loudnessOff` clears the flag and writes the audio-switch byte of the new
state. -/
theorem loudnessOff_run (s : PT2314) (w : Wire) (h0 : 0 ≤ s._gain_index)
    (h1 : s._gain_index ≤ 3) :
    PT2314.loudnessOff s w =
      some (decide (w.endTransmission (w.sent ++
          [toUChar (PT2314.audioSwitchByte s._gain_index false s._channel)]) = 0),
        { s with _loudness := false },
        { w with sent := w.sent ++
          [toUChar (PT2314.audioSwitchByte s._gain_index false s._channel)] }) := by
  have hu := updateAudioSwitch_run { s with _loudness := false } w h0 h1
  show Option.map _ (PT2314.updateAudioSwitch _ w) = _
  exact (congrArg _ hu).trans rfl

/-- C7: in every state with gain index `g` and internal channel `c` in `[0,3]` and loudness
flag `L`, the byte `updateAudioSwitch` hands to the bus is
`0b01000000 | G[g] | (0 if L else 0b00000100) | c` with
`G = [0b00011000, 0b00010000, 0b00001000, 0b00000000]`; the fields share no bit, so the byte
is `0x40 + G[g] + (0 or 4) + c`; and `gain`, `loudnessOn`, `loudnessOff` and `channel` each
hand the bus that byte computed from the state they leave behind. -/
theorem audio_switch_byte (s : PT2314) (w : Wire)
    (hg0 : 0 ≤ s._gain_index) (hg1 : s._gain_index ≤ 3)
    (hc0 : 0 ≤ s._channel) (hc1 : s._channel ≤ 3) :
    (PT2314.gainPreset 0 = 0b00011000 ∧ PT2314.gainPreset 1 = 0b00010000 ∧
      PT2314.gainPreset 2 = 0b00001000 ∧ PT2314.gainPreset 3 = 0b00000000) ∧
    (∃ byte : Nat,
      PT2314.updateAudioSwitch s w =
        some (decide (w.endTransmission (w.sent ++ [byte]) = 0),
          { w with sent := w.sent ++ [byte] }) ∧
      (byte : Int) = PT2314.audioSwitchByte s._gain_index s._loudness s._channel) ∧
    PT2314.audioSwitchByte s._gain_index s._loudness s._channel
      = 0x40 + PT2314.gainPreset s._gain_index + (if s._loudness then 0 else 4) + s._channel ∧
    (Int.land (PT2314.gainPreset s._gain_index) 0b00000100 = 0 ∧
      Int.land (PT2314.gainPreset s._gain_index) s._channel = 0 ∧
      Int.land 0b00000100 s._channel = 0 ∧
      Int.land 0b01000000 (PT2314.gainPreset s._gain_index) = 0 ∧
      Int.land 0b01000000 0b00000100 = 0 ∧ Int.land 0b01000000 s._channel = 0) ∧
    (∀ v : Int, ∃ (ok : Bool) (s' : PT2314) (w' : Wire) (byte : Nat),
      PT2314.gain s w v = some (ok, s', w') ∧ w'.sent = w.sent ++ [byte] ∧
      (byte : Int) = PT2314.audioSwitchByte s'._gain_index s'._loudness s'._channel) ∧
    (∃ (ok : Bool) (s' : PT2314) (w' : Wire) (byte : Nat),
      PT2314.loudnessOn s w = some (ok, s', w') ∧ w'.sent = w.sent ++ [byte] ∧
      (byte : Int) = PT2314.audioSwitchByte s'._gain_index s'._loudness s'._channel) ∧
    (∃ (ok : Bool) (s' : PT2314) (w' : Wire) (byte : Nat),
      PT2314.loudnessOff s w = some (ok, s', w') ∧ w'.sent = w.sent ++ [byte] ∧
      (byte : Int) = PT2314.audioSwitchByte s'._gain_index s'._loudness s'._channel) ∧
    (∀ (ch : Int) (one_based : Bool),
      ∃ (ok : Bool) (s' : PT2314) (w' : Wire) (byte : Nat),
      PT2314.channel s w ch one_based = some (ok, s', w') ∧ w'.sent = w.sent ++ [byte] ∧
      (byte : Int) = PT2314.audioSwitchByte s'._gain_index s'._loudness s'._channel) := by
  obtain ⟨f1, f2, f3, f4, f5, f6, f7, f8⟩ :=
    audioSwitchByte_fields s._gain_index s._loudness s._channel hg0 hg1 hc0 hc1
  refine ⟨⟨rfl, rfl, rfl, rfl⟩, ⟨_, updateAudioSwitch_run s w hg0 hg1, f1⟩, f2,
    ⟨f6, f7, f8, f3, f4, f5⟩, ?_, ?_, ?_, ?_⟩
  · intro v
    obtain ⟨h0, h1⟩ := constrain_mem v 0 3 (by decide)
    exact ⟨_, _, _, _, gain_run s w v, rfl,
      (audioSwitchByte_fields _ s._loudness s._channel h0 h1 hc0 hc1).1⟩
  · exact ⟨_, _, _, _, loudnessOn_run s w hg0 hg1, rfl,
      (audioSwitchByte_fields s._gain_index true s._channel hg0 hg1 hc0 hc1).1⟩
  · exact ⟨_, _, _, _, loudnessOff_run s w hg0 hg1, rfl,
      (audioSwitchByte_fields s._gain_index false s._channel hg0 hg1 hc0 hc1).1⟩
  · intro ch one_based
    obtain ⟨h0, h1⟩ :=
      constrain_mem (if one_based then wrapInt (ch - 1) else ch) 0 3 (by decide)
    exact ⟨_, _, _, _, channel_run s w ch one_based hg0 hg1, rfl,
      (audioSwitchByte_fields s._gain_index s._loudness _ hg0 hg1 h0 h1).1⟩

/-- C7 on the sample state (gain index 2, loudness on, channel 1): the byte is
`0x40 + 0b00001000 + 0 + 1 = 0x49`. -/
theorem audio_switch_byte_witness :
    (0 : Int) ≤ sampleState._gain_index ∧ sampleState._gain_index ≤ 3 ∧
    (0 : Int) ≤ sampleState._channel ∧ sampleState._channel ≤ 3 ∧
    PT2314.audioSwitchByte sampleState._gain_index sampleState._loudness sampleState._channel
      = 0x40 + PT2314.gainPreset sampleState._gain_index
        + (if sampleState._loudness then 0 else 4) + sampleState._channel ∧
    PT2314.updateAudioSwitch sampleState quietWire
      = some (true, { quietWire with sent := [0x49] }) :=
  ⟨by decide, by decide, by decide, by decide,
    (audio_switch_byte sampleState quietWire (by decide) (by decide) (by decide)
      (by decide)).2.2.1, rfl⟩

/-- For gain index and channel in `[0,3]` each field can be read back from the byte handed
to the bus: the channel from the low two bits, the loudness bit from bit 2 and the gain
preset from bits 3 and 4. -/
theorem audioSwitchByte_readback (g : Int) (L : Bool) (c : Int) (hg0 : 0 ≤ g) (hg1 : g ≤ 3)
    (hc0 : 0 ≤ c) (hc1 : c ≤ 3) :
    Int.land (toUChar (PT2314.audioSwitchByte g L c) : Int) 0b00000011 = c ∧
    Int.land (toUChar (PT2314.audioSwitchByte g L c) : Int) 0b00000100
      = (if L then 0 else 0b00000100) ∧
    Int.land (toUChar (PT2314.audioSwitchByte g L c) : Int) 0b00011000
      = PT2314.gainPreset g := by
  interval_cases g <;> interval_cases c <;> cases L <;> decide

/-! ## Gain and channel -/

/-- C8: for every integer `v`, `gain v` stores the index `min (max v 0) 3`, and `getGain`
then returns the entry of 0, 3.75, 7.5, 11.25 at the stored index (as it does in every state
whose index is 0, 1, 2 or 3); `gain 5` stores index 3, `getGain` then returns 11.25, and
with the channel in `[0,3]` the audio-switch byte written has gain bits `0b00000000`. -/
theorem gain_stores_clamped (s : PT2314) (w : Wire) (v : Int) :
    (∃ (ok : Bool) (s' : PT2314) (w' : Wire) (q : ℚ),
      PT2314.gain s w v = some (ok, s', w') ∧ s'._gain_index = min (max v 0) 3 ∧
      ([0, 3.75, 7.5, 11.25] : List ℚ).get? (min (max v 0) 3).toNat = some q ∧
      PT2314.getGain s' = some q) ∧
    (∀ t : PT2314,
      (t._gain_index = 0 → PT2314.getGain t = some 0) ∧
      (t._gain_index = 1 → PT2314.getGain t = some 3.75) ∧
      (t._gain_index = 2 → PT2314.getGain t = some 7.5) ∧
      (t._gain_index = 3 → PT2314.getGain t = some 11.25)) ∧
    (∃ (ok : Bool) (s' : PT2314) (w' : Wire) (byte : Nat),
      PT2314.gain s w 5 = some (ok, s', w') ∧ s'._gain_index = 3 ∧
      PT2314.getGain s' = some 11.25 ∧ w'.sent = w.sent ++ [byte] ∧
      (0 ≤ s._channel → s._channel ≤ 3 → Int.land (byte : Int) 0b00011000 = 0b00000000)) := by
  refine ⟨?_, ?_, ?_⟩
  · have hc := constrain_eq_clamp v 0 3 (by decide)
    obtain ⟨h0, h1⟩ := constrain_mem v 0 3 (by decide)
    obtain ⟨q, hq, hg⟩ := getGain_eq { s with _gain_index := Arduino.constrain v 0 3 } h0 h1
    refine ⟨_, _, _, q, gain_run s w v, hc, ?_, hg⟩
    rw [← hc]
    exact hq
  · intro t
    unfold PT2314.getGain
    refine ⟨fun h => ?_, fun h => ?_, fun h => ?_, fun h => ?_⟩ <;> rw [h] <;> rfl
  · refine ⟨_, _, _, _, gain_run s w 5, rfl, rfl, rfl, ?_⟩
    intro hc0 hc1
    exact (audioSwitchByte_readback 3 s._loudness s._channel (by decide) (by decide)
      hc0 hc1).2.2

/-- C8 on the sample state (channel 1): `gain 5` writes one byte whose gain bits are zero,
and `getGain` returns 11.25 in the state with index 3. -/
theorem gain_stores_clamped_witness :
    (∃ byte : Nat,
      (PT2314.gain sampleState quietWire 5).map (fun r => r.2.2.sent) = some [byte] ∧
      Int.land (byte : Int) 0b00011000 = 0b00000000) ∧
    ({ sampleState with _gain_index := 3 } : PT2314)._gain_index = 3 ∧
    PT2314.getGain { sampleState with _gain_index := 3 } = some 11.25 := by
  obtain ⟨-, hall, ok, s', w', byte, hrun, -, -, hsent, hbits⟩ :=
    gain_stores_clamped sampleState quietWire 5
  refine ⟨⟨byte, ?_, hbits (by decide) (by decide)⟩, rfl,
    (hall { sampleState with _gain_index := 3 }).2.2.2 rfl⟩
  rw [hrun]
  exact congrArg some hsent

/-- C9: with the gain index in range, for `ch` from 1 to 4 `channel ch true` followed by
`getChannel` returns `ch` while the internal channel, which is the low two bits of the byte
written, is `ch - 1`; for `ch` from 0 to 3 `channel ch false` followed by `getChannel`
returns `ch` and the internal channel is `ch`; and for every `ch` the internal channel is
the clamp into `[0,3]` of `ch` (zero-based) or of `ch - 1` (one-based, `ch` a 32-bit value
above the minimum). -/
theorem channel_round_trip (s : PT2314) (w : Wire)
    (hg0 : 0 ≤ s._gain_index) (hg1 : s._gain_index ≤ 3) :
    (∀ ch : Int, 1 ≤ ch → ch ≤ 4 →
      ∃ (ok : Bool) (s' : PT2314) (w' : Wire) (byte : Nat),
        PT2314.channel s w ch true = some (ok, s', w') ∧ PT2314.getChannel s' = ch ∧
        s'._channel = ch - 1 ∧ w'.sent = w.sent ++ [byte] ∧
        Int.land (byte : Int) 0b00000011 = ch - 1) ∧
    (∀ ch : Int, 0 ≤ ch → ch ≤ 3 →
      ∃ (ok : Bool) (s' : PT2314) (w' : Wire) (byte : Nat),
        PT2314.channel s w ch false = some (ok, s', w') ∧ PT2314.getChannel s' = ch ∧
        s'._channel = ch ∧ w'.sent = w.sent ++ [byte] ∧
        Int.land (byte : Int) 0b00000011 = ch) ∧
    (∀ (ch : Int) (one_based : Bool),
      ∃ (ok : Bool) (s' : PT2314) (w' : Wire),
        PT2314.channel s w ch one_based = some (ok, s', w') ∧
        0 ≤ s'._channel ∧ s'._channel ≤ 3 ∧
        (one_based = false → s'._channel = min (max ch 0) 3) ∧
        (one_based = true → -2147483648 < ch → ch < 2147483648 →
          s'._channel = min (max (ch - 1) 0) 3)) := by
  refine ⟨?_, ?_, ?_⟩
  · intro ch h1 h4
    have hw : wrapInt (ch - 1) = ch - 1 := wrapInt_of_range _ (by omega) (by omega)
    have hc : Arduino.constrain (if true = true then wrapInt (ch - 1) else ch) 0 3 = ch - 1 := by
      rw [if_pos rfl, hw, constrain_eq_clamp _ 0 3 (by decide)]
      omega
    have hrun := channel_run s w ch true hg0 hg1
    rw [hc] at hrun
    refine ⟨_, _, _, _, hrun, ?_, rfl, rfl,
      (audioSwitchByte_readback s._gain_index s._loudness (ch - 1) hg0 hg1
        (by omega) (by omega)).1⟩
    show (if true = true then wrapInt (ch - 1 + 1) else ch - 1) = ch
    rw [if_pos rfl]
    rw [wrapInt_of_range _ (by omega) (by omega)]
    omega
  · intro ch h0 h3
    have hc : Arduino.constrain (if false = true then wrapInt (ch - 1) else ch) 0 3 = ch := by
      rw [if_neg (by decide), constrain_eq_clamp _ 0 3 (by decide)]
      omega
    have hrun := channel_run s w ch false hg0 hg1
    rw [hc] at hrun
    exact ⟨_, _, _, _, hrun, rfl, rfl, rfl,
      (audioSwitchByte_readback s._gain_index s._loudness ch hg0 hg1 h0 h3).1⟩
  · intro ch one_based
    obtain ⟨h0, h1⟩ :=
      constrain_mem (if one_based = true then wrapInt (ch - 1) else ch) 0 3 (by decide)
    refine ⟨_, _, _, channel_run s w ch one_based hg0 hg1, h0, h1, ?_, ?_⟩
    · intro hb
      show Arduino.constrain (if one_based = true then wrapInt (ch - 1) else ch) 0 3 = _
      rw [hb, if_neg (by decide), constrain_eq_clamp _ 0 3 (by decide)]
    · intro hb hlo hhi
      show Arduino.constrain (if one_based = true then wrapInt (ch - 1) else ch) 0 3 = _
      rw [hb, if_pos rfl, wrapInt_of_range _ (by omega) (by omega),
        constrain_eq_clamp _ 0 3 (by decide)]

/-- C9 on the sample state: after `channel 1 true` the accessor returns 1, the internal
channel is 0 and exactly one byte was written. -/
theorem channel_round_trip_witness :
    (0 : Int) ≤ sampleState._gain_index ∧ sampleState._gain_index ≤ 3 ∧
    ∃ (ok : Bool) (s' : PT2314) (w' : Wire) (byte : Nat),
      PT2314.channel sampleState quietWire 1 true = some (ok, s', w') ∧
      PT2314.getChannel s' = 1 ∧ s'._channel = 1 - 1 ∧
      w'.sent = quietWire.sent ++ [byte] ∧ Int.land (byte : Int) 0b00000011 = 1 - 1 :=
  ⟨by decide, by decide,
    (channel_round_trip sampleState quietWire (by decide) (by decide)).1 1
      (by decide) (by decide)⟩

/-! ## The full resync -/

/-- With the bass level in `[0,100]`, `updateBass` hands the bus `bassByte` and reports
whether that transmission succeeded. -/
theorem updateBass_run (s : PT2314) (w : Wire) (h0 : 0 ≤ s._bass) (h1 : s._bass ≤ 100) :
    PT2314.updateBass s w =
      some (decide (w.endTransmission (w.sent ++ [s.bassByte]) = 0),
        { w with sent := w.sent ++ [s.bassByte] }) := by
  obtain ⟨hmap, hi0, hi1⟩ := tone_index_range s._bass h0 h1
  obtain ⟨e, he, -⟩ := eq_to_pt2314_code _ hi0 hi1
  rw [← hmap] at he
  have hb : s.bassByte = toUChar (toUInt (Int.lor 0x60 (toUInt e))) := by
    unfold PT2314.bassByte PT2314.toneCode
    rw [he]
    rfl
  rw [hb]
  exact updateBass_of_code s w e he

/-- With the treble level in `[0,100]`, `updateTreble` hands the bus `trebleByte` and
reports whether that transmission succeeded. -/
theorem updateTreble_run (s : PT2314) (w : Wire) (h0 : 0 ≤ s._treble)
    (h1 : s._treble ≤ 100) :
    PT2314.updateTreble s w =
      some (decide (w.endTransmission (w.sent ++ [s.trebleByte]) = 0),
        { w with sent := w.sent ++ [s.trebleByte] }) := by
  obtain ⟨hmap, hi0, hi1⟩ := tone_index_range s._treble h0 h1
  obtain ⟨e, he, -⟩ := eq_to_pt2314_code _ hi0 hi1
  rw [← hmap] at he
  have hb : s.trebleByte = toUChar (toUInt (Int.lor 0x70 (toUInt e))) := by
    unfold PT2314.trebleByte PT2314.toneCode
    rw [he]
    rfl
  rw [hb]
  exact updateTreble_of_code s w e he

/-- Sending nothing succeeds and leaves the bus as it was. -/
theorem sendAll_nil (w : Wire) : PT2314.sendAll w [] = (true, w) := rfl

/-- Sending a list of bytes is sending its head and, if that succeeded, its tail. -/
theorem sendAll_cons (w : Wire) (b : Nat) (bs : List Nat) :
    PT2314.sendAll w (b :: bs) =
      if w.endTransmission (w.sent ++ [b]) ≠ 0 then (false, { w with sent := w.sent ++ [b] })
      else PT2314.sendAll { w with sent := w.sent ++ [b] } bs := rfl

/-- Sending two lists one after the other: the second is attempted only if every byte of
the first was transmitted. -/
theorem sendAll_append (w : Wire) (xs ys : List Nat) :
    PT2314.sendAll w (xs ++ ys) =
      if (PT2314.sendAll w xs).1 = true then PT2314.sendAll (PT2314.sendAll w xs).2 ys
      else PT2314.sendAll w xs := by
  induction xs generalizing w with
  | nil => simp [sendAll_nil]
  | cons b bs ih =>
    rw [List.cons_append, sendAll_cons, sendAll_cons]
    split_ifs with h1 h2 h2
    · simp at h2
    · rfl
    · rw [ih, if_pos h2]
    · rw [ih, if_neg h2]

/-- The operation `updateVolume` sends the volume byte. -/
theorem updateVolume_send (s : PT2314) (w : Wire) :
    PT2314.updateVolume s w =
      ((PT2314.sendAll w [s.volumeByte]).1,
        { s with _volume_pt2314 := PT2314.volume_to_pt2314 s._volume },
        (PT2314.sendAll w [s.volumeByte]).2) := by
  rw [updateVolume_run, sendAll_cons, sendAll_nil]
  unfold PT2314.volumeByte
  split_ifs with h
  · simp [h]
  · push_neg at h
    simp [h]

/-- The operation `updateAttenuation` sends the left and then the right attenuation byte. -/
theorem updateAttenuation_send (s : PT2314) (w : Wire) :
    PT2314.updateAttenuation s w
      = PT2314.sendAll w [s.attenuationByteL, s.attenuationByteR] := by
  rw [updateAttenuation_run, sendAll_cons, sendAll_cons, sendAll_nil]
  simp [List.append_assoc]

/-- With the gain index in `[0,3]`, `updateAudioSwitch` sends the audio-switch byte. -/
theorem updateAudioSwitch_send (s : PT2314) (w : Wire) (h0 : 0 ≤ s._gain_index)
    (h1 : s._gain_index ≤ 3) :
    PT2314.updateAudioSwitch s w = some (PT2314.sendAll w [s.switchByte]) := by
  rw [updateAudioSwitch_run s w h0 h1, sendAll_cons, sendAll_nil]
  unfold PT2314.switchByte
  split_ifs with h
  · simp [h]
  · push_neg at h
    simp [h]

/-- With the bass level in `[0,100]`, `updateBass` sends the bass byte. -/
theorem updateBass_send (s : PT2314) (w : Wire) (h0 : 0 ≤ s._bass) (h1 : s._bass ≤ 100) :
    PT2314.updateBass s w = some (PT2314.sendAll w [s.bassByte]) := by
  rw [updateBass_run s w h0 h1, sendAll_cons, sendAll_nil]
  split_ifs with h
  · simp [h]
  · push_neg at h
    simp [h]

/-- With the treble level in `[0,100]`, `updateTreble` sends the treble byte. -/
theorem updateTreble_send (s : PT2314) (w : Wire) (h0 : 0 ≤ s._treble)
    (h1 : s._treble ≤ 100) :
    PT2314.updateTreble s w = some (PT2314.sendAll w [s.trebleByte]) := by
  rw [updateTreble_run s w h0 h1, sendAll_cons, sendAll_nil]
  split_ifs with h
  · simp [h]
  · push_neg at h
    simp [h]

/-- The part of `updateAll` after the volume write. -/
theorem updateAll_tail (t : PT2314) (w : Wire)
    (hg0 : 0 ≤ t._gain_index) (hg1 : t._gain_index ≤ 3)
    (hb0 : 0 ≤ t._bass) (hb1 : t._bass ≤ 100) (ht0 : 0 ≤ t._treble) (ht1 : t._treble ≤ 100) :
    (match PT2314.updateAttenuation t w with
      | (false, w) => some (false, t, w)
      | (true, w) =>
        match PT2314.updateAudioSwitch t w with
        | none => none
        | some (false, w) => some (false, t, w)
        | some (true, w) =>
          match PT2314.updateBass t w with
          | none => none
          | some (false, w) => some (false, t, w)
          | some (true, w) =>
            match PT2314.updateTreble t w with
            | none => none
            | some (ok, w) => some (ok, t, w))
    = some ((PT2314.sendAll w [t.attenuationByteL, t.attenuationByteR, t.switchByte,
              t.bassByte, t.trebleByte]).1, t,
            (PT2314.sendAll w [t.attenuationByteL, t.attenuationByteR, t.switchByte,
              t.bassByte, t.trebleByte]).2) := by
  have e : [t.attenuationByteL, t.attenuationByteR, t.switchByte, t.bassByte, t.trebleByte]
      = [t.attenuationByteL, t.attenuationByteR] ++ ([t.switchByte] ++ ([t.bassByte] ++
          [t.trebleByte])) := rfl
  rw [e]
  simp only [sendAll_append, updateAttenuation_send, updateAudioSwitch_send t _ hg0 hg1,
    updateBass_send t _ hb0 hb1, updateTreble_send t _ ht0 ht1]
  rcases h1 : PT2314.sendAll w [t.attenuationByteL, t.attenuationByteR] with ⟨b1, w1⟩
  cases b1
  · simp
  · simp only [if_true]
    rcases h2 : PT2314.sendAll w1 [t.switchByte] with ⟨b2, w2⟩
    cases b2
    · simp
    · simp only [if_true]
      rcases h3 : PT2314.sendAll w2 [t.bassByte] with ⟨b3, w3⟩
      cases b3
      · simp
      · simp

/-- With gain index, bass and treble in range, `updateAll` caches the encoded volume and
sends the six resync bytes in order, stopping right after the first failing transmission. -/
theorem updateAll_send (s : PT2314) (w : Wire)
    (hg0 : 0 ≤ s._gain_index) (hg1 : s._gain_index ≤ 3)
    (hb0 : 0 ≤ s._bass) (hb1 : s._bass ≤ 100) (ht0 : 0 ≤ s._treble) (ht1 : s._treble ≤ 100) :
    PT2314.updateAll s w =
      some ((PT2314.sendAll w s.resyncBytes).1,
        { s with _volume_pt2314 := PT2314.volume_to_pt2314 s._volume },
        (PT2314.sendAll w s.resyncBytes).2) := by
  have e : s.resyncBytes = [s.volumeByte] ++ [s.attenuationByteL, s.attenuationByteR,
      s.switchByte, s.bassByte, s.trebleByte] := rfl
  rw [e, sendAll_append]
  unfold PT2314.updateAll
  rw [updateVolume_send]
  rcases h : PT2314.sendAll w [s.volumeByte] with ⟨b, w1⟩
  cases b
  · simp
  · simp only [if_true]
    exact updateAll_tail { s with _volume_pt2314 := PT2314.volume_to_pt2314 s._volume } w1
      hg0 hg1 hb0 hb1 ht0 ht1

/-- What `sendAll` leaves on the bus: the bytes up to and including the first one whose
transmission failed (all of them if none failed), every earlier transmission having
succeeded; the result tells whether all were transmitted. -/
theorem sendAll_spec (bs : List Nat) (w : Wire) :
    ∃ k : Nat, k ≤ bs.length ∧ (bs ≠ [] → 1 ≤ k) ∧
      (PT2314.sendAll w bs).2.sent = w.sent ++ bs.take k ∧
      (PT2314.sendAll w bs).2.endTransmission = w.endTransmission ∧
      (∀ j, 1 ≤ j → j < k → w.endTransmission (w.sent ++ bs.take j) = 0) ∧
      ((PT2314.sendAll w bs).1 = false → w.endTransmission (w.sent ++ bs.take k) ≠ 0) ∧
      ((PT2314.sendAll w bs).1 = true →
        k = bs.length ∧ (1 ≤ k → w.endTransmission (w.sent ++ bs.take k) = 0)) := by
  induction bs generalizing w with
  | nil =>
    refine ⟨0, le_refl _, fun h => absurd rfl h, by simp [sendAll_nil], rfl, ?_, ?_, ?_⟩
    · intro j h1 h2; omega
    · intro h; simp [sendAll_nil] at h
    · intro _; exact ⟨rfl, fun h => absurd h (by decide)⟩
  | cons b bs ih =>
    rw [sendAll_cons]
    by_cases h : w.endTransmission (w.sent ++ [b]) = 0
    · rw [if_neg (not_not.mpr h)]
      obtain ⟨k, hk, hne, hsent, hend, hprev, hfalse, htrue⟩ :=
        ih { w with sent := w.sent ++ [b] }
      have hshift : ∀ j : Nat, (w.sent ++ [b]) ++ bs.take j = w.sent ++ (b :: bs).take (j + 1) := by
        intro j
        simp [List.append_assoc]
      refine ⟨k + 1, by simpa using hk, fun _ => by omega, ?_, hend, ?_, ?_, ?_⟩
      · rw [hsent]; exact hshift k
      · intro j hj1 hjk
        obtain ⟨j', rfl⟩ : ∃ j', j = j' + 1 := ⟨j - 1, by omega⟩
        rw [← hshift]
        by_cases hj0 : j' = 0
        · subst hj0; simpa using h
        · exact hprev j' (by omega) (by omega)
      · intro hf
        rw [← hshift]
        exact hfalse hf
      · intro ht
        obtain ⟨hlen, hlast⟩ := htrue ht
        refine ⟨by simp [hlen], fun _ => ?_⟩
        rw [← hshift]
        by_cases hk0 : k = 0
        · subst hk0; simpa using h
        · exact hlast (by omega)
    · rw [if_pos h]
      refine ⟨1, by simp, fun _ => le_refl _, by simp, rfl, ?_, ?_, ?_⟩
      · intro j h1 h2; omega
      · intro _; simpa using h
      · intro hf; simp at hf

/-- On a bus whose transmissions all succeed `sendAll` hands over every byte. -/
theorem sendAll_ok (bs : List Nat) (w : Wire) (hbus : ∀ h, w.endTransmission h = 0) :
    PT2314.sendAll w bs = (true, { w with sent := w.sent ++ bs }) := by
  induction bs generalizing w with
  | nil => simp [sendAll_nil]
  | cons b bs ih =>
    rw [sendAll_cons, if_neg (not_not.mpr (hbus _)), ih { w with sent := w.sent ++ [b] } hbus]
    simp [List.append_assoc]

/-- The sample state satisfies the range invariant. -/
theorem sampleState_inRange : PT2314.InRange sampleState := by
  unfold PT2314.InRange
  decide

/-- C11: in every state satisfying the range invariant and on every bus, the bytes
`updateAll` hands to the bus are the first `k` of the six resync bytes (volume, left
attenuation, right attenuation, audio switch, bass, treble), where `k` is the position of
the first failing transmission, or 6 if none fails: the first `k - 1` transmissions
succeeded and, if `k < 6`, the `k`-th failed. The result is false exactly when the `k`-th
transmission failed and true exactly when all six transmissions succeed, in which case all
six bytes were handed over. From every prior state, `init` on an always-succeeding bus
writes exactly 0x3F, 0xC0, 0xE0, 0x5C, 0x67, 0x77 and returns true. -/
theorem updateAll_first_failure (s : PT2314) (w : Wire) :
    (PT2314.InRange s →
      ∃ (ok : Bool) (s' : PT2314) (w' : Wire) (k : Nat),
        PT2314.updateAll s w = some (ok, s', w') ∧ 1 ≤ k ∧ k ≤ 6 ∧
        w'.sent = w.sent ++ s.resyncBytes.take k ∧
        (∀ j, 1 ≤ j → j < k → w.endTransmission (w.sent ++ s.resyncBytes.take j) = 0) ∧
        (k < 6 → w.endTransmission (w.sent ++ s.resyncBytes.take k) ≠ 0) ∧
        (ok = false ↔ w.endTransmission (w.sent ++ s.resyncBytes.take k) ≠ 0) ∧
        (ok = true → k = 6 ∧ w'.sent = w.sent ++ s.resyncBytes) ∧
        (ok = true ↔
          ∀ j, 1 ≤ j → j ≤ 6 → w.endTransmission (w.sent ++ s.resyncBytes.take j) = 0)) ∧
    ((∀ h, w.endTransmission h = 0) →
      ∃ (s' : PT2314) (w' : Wire), PT2314.init s w = some (true, s', w') ∧
        w'.sent = w.sent ++ [0x3F, 0xC0, 0xE0, 0x5C, 0x67, 0x77]) := by
  constructor
  · intro hr
    obtain ⟨-, ⟨hb0, hb1⟩, ⟨ht0, ht1⟩, -, -, ⟨hg0, hg1⟩, -⟩ := hr
    obtain ⟨k, hk, hne, hsent, -, hprev, hfalse, htrue⟩ := sendAll_spec s.resyncBytes w
    have hlen : s.resyncBytes.length = 6 := rfl
    rw [hlen] at hk htrue
    have hk1 : 1 ≤ k := hne (by simp [PT2314.resyncBytes])
    have hbool : (PT2314.sendAll w s.resyncBytes).1 = false ∨
        (PT2314.sendAll w s.resyncBytes).1 = true := by
      cases (PT2314.sendAll w s.resyncBytes).1
      · exact Or.inl rfl
      · exact Or.inr rfl
    refine ⟨_, _, _, k, updateAll_send s w hg0 hg1 hb0 hb1 ht0 ht1, hk1, hk, hsent, hprev,
      ?_, ⟨hfalse, ?_⟩, ?_, ?_, ?_⟩
    · intro hk6
      rcases hbool with hf | ht
      · exact hfalse hf
      · have := (htrue ht).1
        omega
    · intro hfail
      rcases hbool with hf | ht
      · exact hf
      · exact absurd ((htrue ht).2 hk1) hfail
    · intro ht
      obtain ⟨hk6, -⟩ := htrue ht
      refine ⟨hk6, ?_⟩
      rw [hsent, hk6]
      rfl
    · intro ht j hj1 hj6
      obtain ⟨hk6, hlast⟩ := htrue ht
      by_cases hj : j < k
      · exact hprev j hj1 hj
      · have : j = k := by omega
        rw [this]
        exact hlast hk1
    · intro hall
      rcases hbool with hf | ht
      · exact absurd (hall k hk1 hk) (hfalse hf)
      · exact ht
  · intro hbus
    have hrun := updateAll_send
      { s with _volume := 0, _attenuationL := 100, _attenuationR := 100, _mute := false,
               _loudness := false, _gain_index := 0, _channel := 0, _bass := 50,
               _treble := 50 } w
      (by show (0 : Int) ≤ 0; decide) (by show (0 : Int) ≤ 3; decide)
      (by show (0 : Int) ≤ 50; decide) (by show (50 : Int) ≤ 100; decide)
      (by show (0 : Int) ≤ 50; decide) (by show (50 : Int) ≤ 100; decide)
    rw [sendAll_ok _ w hbus] at hrun
    exact ⟨_, _, hrun, rfl⟩

/-- C11 on the sample state: with a bus whose third transmission fails, and with the quiet
bus, where the result is true and so all six bytes 0x3B, 0xDD, 0xFD, 0x49, 0x60, 0x70 are
handed over; and `init` on the quiet bus. -/
theorem updateAll_first_failure_witness :
    PT2314.InRange sampleState ∧ (∀ h, quietWire.endTransmission h = 0) ∧
    (∃ (ok : Bool) (s' : PT2314) (w' : Wire) (k : Nat),
      PT2314.updateAll sampleState (failingWire 3) = some (ok, s', w') ∧ 1 ≤ k ∧ k ≤ 6 ∧
      w'.sent = (failingWire 3).sent ++ sampleState.resyncBytes.take k ∧
      (∀ j, 1 ≤ j → j < k → (failingWire 3).endTransmission
        ((failingWire 3).sent ++ sampleState.resyncBytes.take j) = 0) ∧
      (k < 6 → (failingWire 3).endTransmission
        ((failingWire 3).sent ++ sampleState.resyncBytes.take k) ≠ 0) ∧
      (ok = false ↔ (failingWire 3).endTransmission
        ((failingWire 3).sent ++ sampleState.resyncBytes.take k) ≠ 0) ∧
      (ok = true → k = 6 ∧
        w'.sent = (failingWire 3).sent ++ sampleState.resyncBytes) ∧
      (ok = true ↔ ∀ j, 1 ≤ j → j ≤ 6 → (failingWire 3).endTransmission
        ((failingWire 3).sent ++ sampleState.resyncBytes.take j) = 0)) ∧
    (PT2314.updateAll sampleState quietWire).map (fun r => (r.1, r.2.2.sent))
      = some (true, [0x3B, 0xDD, 0xFD, 0x49, 0x60, 0x70]) ∧
    (∃ (s' : PT2314) (w' : Wire), PT2314.init sampleState quietWire = some (true, s', w') ∧
      w'.sent = quietWire.sent ++ [0x3F, 0xC0, 0xE0, 0x5C, 0x67, 0x77]) := by
  refine ⟨sampleState_inRange, fun _ => rfl,
    (updateAll_first_failure sampleState (failingWire 3)).1 sampleState_inRange, ?_,
    (updateAll_first_failure sampleState quietWire).2 (fun _ => rfl)⟩
  obtain ⟨ok, s', w', k, hrun, -, -, -, -, -, -, hfull, hiff⟩ :=
    (updateAll_first_failure sampleState quietWire).1 sampleState_inRange
  have hok : ok = true := hiff.mpr (fun _ _ _ => rfl)
  rw [hrun, hok, Option.map_some', (hfull hok).2]
  rfl

/-! ## Initialisation -/

/-- From every prior state and on every bus `init` stores the defaults, caches the encoded
volume 63 and sends the six bytes of the default state; the addressing mode of the channel
is the only field it leaves as it was. -/
theorem init_run (s : PT2314) (w : Wire) :
    PT2314.init s w =
      some ((PT2314.sendAll w [0x3F, 0xC0, 0xE0, 0x5C, 0x67, 0x77]).1,
        { _volume := 0, _attenuationL := 100, _attenuationR := 100, _mute := false,
          _loudness := false, _gain_index := 0, _channel := 0,
          _channel_is_one_based := s._channel_is_one_based, _bass := 50, _treble := 50,
          _volume_pt2314 := 63 },
        (PT2314.sendAll w [0x3F, 0xC0, 0xE0, 0x5C, 0x67, 0x77]).2) :=
  updateAll_send
    { s with _volume := 0, _attenuationL := 100, _attenuationR := 100, _mute := false,
             _loudness := false, _gain_index := 0, _channel := 0, _bass := 50,
             _treble := 50 } w
    (by show (0 : Int) ≤ 0; decide) (by show (0 : Int) ≤ 3; decide)
    (by show (0 : Int) ≤ 50; decide) (by show (50 : Int) ≤ 100; decide)
    (by show (0 : Int) ≤ 50; decide) (by show (50 : Int) ≤ 100; decide)

/-- C12: for every prior state and every bus, right after `init` the accessors return the
defaults: volume 0, bass 50, treble 50, loudness false, gain 0, left and right attenuation
100, and the mute flag is false. -/
theorem init_defaults (s : PT2314) (w : Wire) :
    ∃ (ok : Bool) (s' : PT2314) (w' : Wire), PT2314.init s w = some (ok, s', w') ∧
      PT2314.getVolume s' = 0 ∧ PT2314.getBass s' = 50 ∧ PT2314.getTreble s' = 50 ∧
      PT2314.getLoudness s' = false ∧ PT2314.getGain s' = some 0 ∧
      PT2314.getAttenuationL s' = 100 ∧ PT2314.getAttenuationR s' = 100 ∧
      s'._mute = false :=
  ⟨_, _, _, init_run s w, rfl, rfl, rfl, rfl, rfl, rfl, rfl, rfl⟩

/-- C13, as stated, fails: after `channel 3 true` on the sample state, `init` followed by
`getChannel` returns 1, not 0. -/
theorem init_getChannel_counterexample :
    ((PT2314.channel sampleState quietWire 3 true).bind fun r =>
      (PT2314.init r.2.1 r.2.2).map fun r' => PT2314.getChannel r'.2.1) = some 1 ∧
    ((PT2314.channel sampleState quietWire 3 true).bind fun r =>
      (PT2314.init r.2.1 r.2.2).map fun r' => PT2314.getChannel r'.2.1) ≠ some 0 := by
  constructor
  · rfl
  · decide

/-- C13 amended: for every prior state and every bus, `init` resets the internal channel to
0 and keeps the addressing mode, so `getChannel` right after `init` returns 0 when the
remembered mode is zero-based and 1, the first channel, when it is one-based. -/
theorem init_resets_internal_channel (s : PT2314) (w : Wire) :
    ∃ (ok : Bool) (s' : PT2314) (w' : Wire), PT2314.init s w = some (ok, s', w') ∧
      s'._channel = 0 ∧ s'._channel_is_one_based = s._channel_is_one_based ∧
      PT2314.getChannel s' = (if s._channel_is_one_based then 1 else 0) := by
  refine ⟨_, _, _, init_run s w, rfl, rfl, ?_⟩
  unfold PT2314.getChannel
  cases s._channel_is_one_based <;> rfl

/-! ## The setters and the bytes they write -/

/-- The operation `muteOff` clears the flag, runs `updateAttenuation` and, whatever that
returned, runs `updateVolume`. -/
theorem muteOff_run (s : PT2314) (w : Wire) :
    PT2314.muteOff s w =
      PT2314.updateVolume { s with _mute := false }
        (PT2314.updateAttenuation { s with _mute := false } w).2 :=
  rfl

/-- C14 at the failing input: on a bus whose first transmission fails and whose later ones
succeed, `muteOn` in the sample state hands over the left sentinel, then still the volume
byte, and returns true; `muteOff` likewise hands over the left attenuation byte and the
volume byte and returns true. -/
theorem mute_ignores_attenuation_failure :
    (failingWire 1).endTransmission ((failingWire 1).sent ++ [0b11011111]) ≠ 0 ∧
    (PT2314.muteOn sampleState (failingWire 1)).1 = true ∧
    (PT2314.muteOn sampleState (failingWire 1)).2.2.sent = [0b11011111, 59] ∧
    (failingWire 1).endTransmission ((failingWire 1).sent ++ [0xDD]) ≠ 0 ∧
    (PT2314.muteOff sampleState (failingWire 1)).1 = true ∧
    (PT2314.muteOff sampleState (failingWire 1)).2.2.sent = [0xDD, 59] := by
  refine ⟨by decide, rfl, rfl, by decide, rfl, rfl⟩

/-- C15, as stated, fails: on the quiet bus `muteOn` and `muteOff` in the sample state each
write three bytes, not two: the two attenuation bytes and then the volume byte. -/
theorem mute_writes_three_counterexample :
    (∀ h, quietWire.endTransmission h = 0) ∧
    (PT2314.muteOn sampleState quietWire).2.2.sent = [0b11011111, 0b11111111, 59] ∧
    (PT2314.muteOn sampleState quietWire).2.2.sent.length ≠ 2 ∧
    (PT2314.muteOff sampleState quietWire).2.2.sent = [0xDD, 0xFD, 59] ∧
    (PT2314.muteOff sampleState quietWire).2.2.sent.length ≠ 2 := by
  refine ⟨fun _ => rfl, rfl, by decide, rfl, by decide⟩

/-- On a succeeding bus `updateVolume` returns true after handing over the volume byte. -/
theorem updateVolume_ok (s : PT2314) (w : Wire) (hbus : ∀ h, w.endTransmission h = 0) :
    PT2314.updateVolume s w =
      (true, { s with _volume_pt2314 := PT2314.volume_to_pt2314 s._volume },
        { w with sent := w.sent ++ [s.volumeByte] }) := by
  rw [updateVolume_send, sendAll_ok _ w hbus]

/-- On a succeeding bus `muteOn` and `muteOff` return true after handing over the two
attenuation bytes and the volume byte of the state they leave. -/
theorem mute_ok (s : PT2314) (w : Wire) (hbus : ∀ h, w.endTransmission h = 0) :
    PT2314.muteOn s w =
      (true, { s with _mute := true, _volume_pt2314 := PT2314.volume_to_pt2314 s._volume },
        { w with sent := w.sent ++ [0b11011111, 0b11111111, s.volumeByte] }) ∧
    PT2314.muteOff s w =
      (true, { s with _mute := false, _volume_pt2314 := PT2314.volume_to_pt2314 s._volume },
        { w with sent := w.sent ++
          [({ s with _mute := false } : PT2314).attenuationByteL,
            ({ s with _mute := false } : PT2314).attenuationByteR, s.volumeByte] }) := by
  constructor
  · obtain ⟨eL, eR⟩ := attenuationByte_muted { s with _mute := true } rfl
    rw [muteOn_run, updateAttenuation_ok _ w hbus, eL, eR]
    refine (updateVolume_ok _ { w with sent := w.sent ++ [0b11011111, 0b11111111] }
      hbus).trans ?_
    simp only [List.append_assoc, List.cons_append, List.nil_append]
    rfl
  · rw [muteOff_run, updateAttenuation_ok _ w hbus]
    refine (updateVolume_ok _ { w with sent := w.sent ++
      [({ s with _mute := false } : PT2314).attenuationByteL,
        ({ s with _mute := false } : PT2314).attenuationByteR] } hbus).trans ?_
    simp only [List.append_assoc, List.cons_append, List.nil_append]
    rfl

/-- C15 amended: on an always-succeeding bus and with the gain index in `[0,3]`, `volume`,
`channel`, `loudnessOn`, `loudnessOff`, `bass`, `treble` and `gain` each write exactly one
byte (the volume, audio-switch, bass or treble byte of the state they leave), `attenuation`
writes exactly the left and right attenuation bytes, and `muteOn` and `muteOff` each write
exactly three bytes: the left and right attenuation bytes followed by the volume byte. -/
theorem setter_write_counts (s : PT2314) (w : Wire) (hbus : ∀ h, w.endTransmission h = 0)
    (hg0 : 0 ≤ s._gain_index) (hg1 : s._gain_index ≤ 3) :
    (∀ v : Int, ∃ (s' : PT2314) (w' : Wire),
      PT2314.volume s w v = (true, s', w') ∧ w'.sent = w.sent ++ [s'.volumeByte]) ∧
    (∀ (ch : Int) (one_based : Bool), ∃ (s' : PT2314) (w' : Wire),
      PT2314.channel s w ch one_based = some (true, s', w') ∧
      w'.sent = w.sent ++ [s'.switchByte]) ∧
    (∃ (s' : PT2314) (w' : Wire),
      PT2314.loudnessOn s w = some (true, s', w') ∧ w'.sent = w.sent ++ [s'.switchByte]) ∧
    (∃ (s' : PT2314) (w' : Wire),
      PT2314.loudnessOff s w = some (true, s', w') ∧ w'.sent = w.sent ++ [s'.switchByte]) ∧
    (∀ b : Int, ∃ (s' : PT2314) (w' : Wire),
      PT2314.bass s w b = some (true, s', w') ∧ w'.sent = w.sent ++ [s'.bassByte]) ∧
    (∀ t : Int, ∃ (s' : PT2314) (w' : Wire),
      PT2314.treble s w t = some (true, s', w') ∧ w'.sent = w.sent ++ [s'.trebleByte]) ∧
    (∀ v : Int, ∃ (s' : PT2314) (w' : Wire),
      PT2314.gain s w v = some (true, s', w') ∧ w'.sent = w.sent ++ [s'.switchByte]) ∧
    (∀ l r : Int, ∃ (s' : PT2314) (w' : Wire),
      PT2314.attenuation s w l r = (true, s', w') ∧
      w'.sent = w.sent ++ [s'.attenuationByteL, s'.attenuationByteR]) ∧
    (∃ (s' : PT2314) (w' : Wire), PT2314.muteOn s w = (true, s', w') ∧
      w'.sent = w.sent ++ [s'.attenuationByteL, s'.attenuationByteR, s'.volumeByte]) ∧
    (∃ (s' : PT2314) (w' : Wire), PT2314.muteOff s w = (true, s', w') ∧
      w'.sent = w.sent ++ [s'.attenuationByteL, s'.attenuationByteR, s'.volumeByte]) := by
  refine ⟨?_, ?_, ?_, ?_, ?_, ?_, ?_, ?_, ?_, ?_⟩
  · intro v
    exact ⟨_, _, updateVolume_ok { s with _volume := Arduino.constrain v 0 100 } w hbus, rfl⟩
  · intro ch one_based
    have h := channel_run s w ch one_based hg0 hg1
    simp only [hbus, decide_True] at h
    exact ⟨_, _, h, rfl⟩
  · have h := loudnessOn_run s w hg0 hg1
    simp only [hbus, decide_True] at h
    exact ⟨_, _, h, rfl⟩
  · have h := loudnessOff_run s w hg0 hg1
    simp only [hbus, decide_True] at h
    exact ⟨_, _, h, rfl⟩
  · intro b
    obtain ⟨h0, h1⟩ := constrain_mem b 0 100 (by decide)
    have h : PT2314.bass s w b = some (true, { s with _bass := Arduino.constrain b 0 100 },
        { w with sent := w.sent ++
          [({ s with _bass := Arduino.constrain b 0 100 } : PT2314).bassByte] }) := by
      show Option.map _ (PT2314.updateBass _ w) = _
      rw [updateBass_send _ w h0 h1, sendAll_ok _ w hbus]
      rfl
    exact ⟨_, _, h, rfl⟩
  · intro t
    obtain ⟨h0, h1⟩ := constrain_mem t 0 100 (by decide)
    have h : PT2314.treble s w t = some (true, { s with _treble := Arduino.constrain t 0 100 },
        { w with sent := w.sent ++
          [({ s with _treble := Arduino.constrain t 0 100 } : PT2314).trebleByte] }) := by
      show Option.map _ (PT2314.updateTreble _ w) = _
      rw [updateTreble_send _ w h0 h1, sendAll_ok _ w hbus]
      rfl
    exact ⟨_, _, h, rfl⟩
  · intro v
    have h := gain_run s w v
    simp only [hbus, decide_True] at h
    exact ⟨_, _, h, rfl⟩
  · intro l r
    have h := attenuation_run s w l r
    rw [updateAttenuation_ok _ w hbus] at h
    exact ⟨_, _, h, rfl⟩
  · exact ⟨_, _, (mute_ok s w hbus).1, rfl⟩
  · exact ⟨_, _, (mute_ok s w hbus).2, rfl⟩

/-- C15 amended, on the sample state and the quiet bus: the three bytes of `muteOn`. -/
theorem setter_write_counts_witness :
    (∀ h, quietWire.endTransmission h = 0) ∧
    (0 : Int) ≤ sampleState._gain_index ∧ sampleState._gain_index ≤ 3 ∧
    ∃ (s' : PT2314) (w' : Wire), PT2314.muteOn sampleState quietWire = (true, s', w') ∧
      w'.sent = quietWire.sent ++ [s'.attenuationByteL, s'.attenuationByteR, s'.volumeByte] :=
  ⟨fun _ => rfl, by decide, by decide,
    (setter_write_counts sampleState quietWire (fun _ => rfl) (by decide)
      (by decide)).2.2.2.2.2.2.2.2.1⟩

/-! ## The volume in decibels -/

/-- In every state whose cached volume register `R` is in `[0,63]`, `getVolumedB` reads
`aSteps` at `R mod 8` and `bSteps` at `R div 8`, both in bounds, and their sum is
`-1.25 * R`. -/
theorem getVolumedB_of_register (t : PT2314) (h0 : 0 ≤ t._volume_pt2314)
    (h1 : t._volume_pt2314 ≤ 63) :
    ∃ a b : ℚ, PT2314.aSteps.get? (t._volume_pt2314 % 8).toNat = some a ∧
      PT2314.bSteps.get? (t._volume_pt2314 / 8).toNat = some b ∧
      PT2314.getVolumedB t = some (a + b) ∧ a + b = -1.25 * (t._volume_pt2314 : ℚ) := by
  unfold PT2314.getVolumedB
  generalize t._volume_pt2314 = R at h0 h1
  interval_cases R <;> exact ⟨_, _, rfl, rfl, rfl, by norm_num⟩

/-- C16: for every integer `v`, after `volume v` the cached register is
`R = volume_to_pt2314 c` for the clamp `c` of `v`, it lies in `[0,63]`, and `getVolumedB`
returns `aSteps[R mod 8] + bSteps[R div 8]`, which as an exact rational is `-1.25 * R` and so
lies in `[-78.75, 0]`; the same sum equals `-1.25 * R` in every state whose register `R` is
in `[0,63]`; the value is -78.75 after `volume 0` and after `init`, and 0 after
`volume 100`. -/
theorem getVolumedB_after_volume (s : PT2314) (w : Wire) (v : Int) :
    (∃ (ok : Bool) (s' : PT2314) (w' : Wire) (a b : ℚ),
      PT2314.volume s w v = (ok, s', w') ∧
      s'._volume_pt2314 = PT2314.volume_to_pt2314 (min (max v 0) 100) ∧
      0 ≤ s'._volume_pt2314 ∧ s'._volume_pt2314 ≤ 63 ∧
      PT2314.aSteps.get? (s'._volume_pt2314 % 8).toNat = some a ∧
      PT2314.bSteps.get? (s'._volume_pt2314 / 8).toNat = some b ∧
      PT2314.getVolumedB s' = some (a + b) ∧
      a + b = -1.25 * (s'._volume_pt2314 : ℚ) ∧ -78.75 ≤ a + b ∧ a + b ≤ 0) ∧
    (∀ t : PT2314, 0 ≤ t._volume_pt2314 → t._volume_pt2314 ≤ 63 →
      ∃ a b : ℚ, PT2314.aSteps.get? (t._volume_pt2314 % 8).toNat = some a ∧
        PT2314.bSteps.get? (t._volume_pt2314 / 8).toNat = some b ∧
        PT2314.getVolumedB t = some (a + b) ∧ a + b = -1.25 * (t._volume_pt2314 : ℚ)) ∧
    PT2314.getVolumedB (PT2314.volume s w 0).2.1 = some (-78.75) ∧
    PT2314.getVolumedB (PT2314.volume s w 100).2.1 = some 0 ∧
    (PT2314.init s w).bind (fun r => PT2314.getVolumedB r.2.1) = some (-78.75) := by
  refine ⟨?_, fun t h0 h1 => getVolumedB_of_register t h0 h1, ?_, ?_, ?_⟩
  · have hc := constrain_eq_clamp v 0 100 (by decide)
    obtain ⟨hm0, hm1⟩ := clamp_mem v 0 100 (by decide)
    have hR := volume_to_pt2314_eq (min (max v 0) 100) hm0 hm1
    have hrun := updateVolume_run { s with _volume := Arduino.constrain v 0 100 } w
    have hreg :
        ({ s with _volume := Arduino.constrain v 0 100,
                  _volume_pt2314 := PT2314.volume_to_pt2314 (Arduino.constrain v 0 100) } :
          PT2314)._volume_pt2314 = PT2314.volume_to_pt2314 (min (max v 0) 100) := by
      show PT2314.volume_to_pt2314 (Arduino.constrain v 0 100) = _
      rw [hc]
    have h0 : 0 ≤ PT2314.volume_to_pt2314 (min (max v 0) 100) := by rw [hR]; omega
    have h1 : PT2314.volume_to_pt2314 (min (max v 0) 100) ≤ 63 := by rw [hR]; omega
    obtain ⟨a, b, ha, hb, hdb, hsum⟩ := getVolumedB_of_register
      { s with _volume := Arduino.constrain v 0 100,
               _volume_pt2314 := PT2314.volume_to_pt2314 (Arduino.constrain v 0 100) }
      (by rw [hreg]; exact h0) (by rw [hreg]; exact h1)
    refine ⟨_, _, _, a, b, hrun, hreg, by rw [hreg]; exact h0, by rw [hreg]; exact h1,
      ha, hb, hdb, hsum, ?_, ?_⟩
    · rw [hsum, hreg]
      have : ((PT2314.volume_to_pt2314 (min (max v 0) 100) : Int) : ℚ) ≤ 63 := by
        exact_mod_cast h1
      linarith
    · rw [hsum, hreg]
      have : (0 : ℚ) ≤ ((PT2314.volume_to_pt2314 (min (max v 0) 100) : Int) : ℚ) := by
        exact_mod_cast h0
      linarith
  · show PT2314.getVolumedB _ = _
    unfold PT2314.getVolumedB
    show some ((-8.75 : ℚ) + (-70)) = some (-78.75)
    norm_num
  · show PT2314.getVolumedB _ = _
    unfold PT2314.getVolumedB
    show some ((0 : ℚ) + 0) = some 0
    norm_num
  · rw [init_run]
    show PT2314.getVolumedB _ = _
    unfold PT2314.getVolumedB
    show some ((-8.75 : ℚ) + (-70)) = some (-78.75)
    norm_num

/-- C16 on the sample state, whose cached register is 59: the value is
`aSteps[3] + bSteps[7] = -1.25 * 59`. -/
theorem getVolumedB_after_volume_witness :
    (0 : Int) ≤ sampleState._volume_pt2314 ∧ sampleState._volume_pt2314 ≤ 63 ∧
    ∃ a b : ℚ, PT2314.aSteps.get? (sampleState._volume_pt2314 % 8).toNat = some a ∧
      PT2314.bSteps.get? (sampleState._volume_pt2314 / 8).toNat = some b ∧
      PT2314.getVolumedB sampleState = some (a + b) ∧
      a + b = -1.25 * (sampleState._volume_pt2314 : ℚ) :=
  ⟨by decide, by decide,
    (getVolumedB_after_volume sampleState quietWire 7).2.1 sampleState (by decide)
      (by decide)⟩

/-! ## The state invariant -/

/-- The encoded volume of a level in `[0,100]` lies in `[0,63]`. -/
theorem volume_to_pt2314_range (vol : Int) (h0 : 0 ≤ vol) (h1 : vol ≤ 100) :
    0 ≤ PT2314.volume_to_pt2314 vol ∧ PT2314.volume_to_pt2314 vol ≤ 63 := by
  rw [volume_to_pt2314_eq vol h0 h1]
  constructor <;> omega

/-- From every prior state and on every bus `init` returns and leaves a well-formed state. -/
theorem init_wellFormed (s : PT2314) (w : Wire) :
    ∃ (ok : Bool) (s' : PT2314) (w' : Wire),
      PT2314.init s w = some (ok, s', w') ∧ PT2314.WellFormed s' := by
  refine ⟨_, _, _, init_run s w, ?_⟩
  unfold PT2314.WellFormed PT2314.InRange
  dsimp only
  omega

/-- The operation `bass` stores the clamped level and sends the bass byte of the new state. -/
theorem bass_run (s : PT2314) (w : Wire) (b : Int) :
    PT2314.bass s w b =
      some ((PT2314.sendAll w
          [({ s with _bass := Arduino.constrain b 0 100 } : PT2314).bassByte]).1,
        { s with _bass := Arduino.constrain b 0 100 },
        (PT2314.sendAll w
          [({ s with _bass := Arduino.constrain b 0 100 } : PT2314).bassByte]).2) := by
  obtain ⟨h0, h1⟩ := constrain_mem b 0 100 (by decide)
  show Option.map _ (PT2314.updateBass _ w) = _
  rw [updateBass_send _ w h0 h1]
  rfl

/-- The operation `treble` stores the clamped level and sends the treble byte of the new
state. -/
theorem treble_run (s : PT2314) (w : Wire) (t : Int) :
    PT2314.treble s w t =
      some ((PT2314.sendAll w
          [({ s with _treble := Arduino.constrain t 0 100 } : PT2314).trebleByte]).1,
        { s with _treble := Arduino.constrain t 0 100 },
        (PT2314.sendAll w
          [({ s with _treble := Arduino.constrain t 0 100 } : PT2314).trebleByte]).2) := by
  obtain ⟨h0, h1⟩ := constrain_mem t 0 100 (by decide)
  show Option.map _ (PT2314.updateTreble _ w) = _
  rw [updateTreble_send _ w h0 h1]
  rfl

/-- Every public operation, with any arguments and on any bus, returns on a well-formed
state and leaves a well-formed state. -/
theorem run_wellFormed (o : PT2314.Op) (s : PT2314) (w : Wire) (h : PT2314.WellFormed s) :
    ∃ (ok : Bool) (s' : PT2314) (w' : Wire),
      o.run s w = some (ok, s', w') ∧ PT2314.WellFormed s' := by
  obtain ⟨⟨hv, hb, ht, hl, hr, hg, hc⟩, hp⟩ := h
  cases o with
  | init => exact init_wellFormed s w
  | volume v =>
    have hcv := constrain_mem v 0 100 (by decide)
    exact ⟨_, _, _, congrArg some (updateVolume_run _ w),
      ⟨hcv, hb, ht, hl, hr, hg, hc⟩, volume_to_pt2314_range _ hcv.1 hcv.2⟩
  | muteOn =>
    exact ⟨_, _, _, congrArg some ((muteOn_run s w).trans (updateVolume_run _ _)),
      ⟨hv, hb, ht, hl, hr, hg, hc⟩, volume_to_pt2314_range _ hv.1 hv.2⟩
  | muteOff =>
    exact ⟨_, _, _, congrArg some ((muteOff_run s w).trans (updateVolume_run _ _)),
      ⟨hv, hb, ht, hl, hr, hg, hc⟩, volume_to_pt2314_range _ hv.1 hv.2⟩
  | channel ch one_based =>
    exact ⟨_, _, _, channel_run s w ch one_based hg.1 hg.2,
      ⟨hv, hb, ht, hl, hr, hg, constrain_mem _ 0 3 (by decide)⟩, hp⟩
  | loudnessOn =>
    exact ⟨_, _, _, loudnessOn_run s w hg.1 hg.2, ⟨hv, hb, ht, hl, hr, hg, hc⟩, hp⟩
  | loudnessOff =>
    exact ⟨_, _, _, loudnessOff_run s w hg.1 hg.2, ⟨hv, hb, ht, hl, hr, hg, hc⟩, hp⟩
  | attenuation l r =>
    exact ⟨_, _, _, congrArg some (attenuation_run s w l r),
      ⟨hv, hb, ht, constrain_mem l 0 100 (by decide), constrain_mem r 0 100 (by decide),
        hg, hc⟩, hp⟩
  | bass b =>
    exact ⟨_, _, _, bass_run s w b,
      ⟨hv, constrain_mem b 0 100 (by decide), ht, hl, hr, hg, hc⟩, hp⟩
  | treble t =>
    exact ⟨_, _, _, treble_run s w t,
      ⟨hv, hb, constrain_mem t 0 100 (by decide), hl, hr, hg, hc⟩, hp⟩
  | gain v =>
    exact ⟨_, _, _, gain_run s w v,
      ⟨hv, hb, ht, hl, hr, constrain_mem v 0 3 (by decide), hc⟩, hp⟩

/-- Every finite sequence of public operations returns on a well-formed state, whatever the
bus answers, and leaves a well-formed state. -/
theorem runOps_wellFormed (ops : List PT2314.Op) (s : PT2314) (w : Wire)
    (h : PT2314.WellFormed s) :
    ∃ (s' : PT2314) (w' : Wire),
      PT2314.runOps ops s w = some (s', w') ∧ PT2314.WellFormed s' := by
  induction ops generalizing s w with
  | nil => exact ⟨s, w, rfl, h⟩
  | cons o os ih =>
    obtain ⟨ok, s1, w1, hrun, h1⟩ := run_wellFormed o s w h
    obtain ⟨s', w', hrest, h'⟩ := ih s1 w1 h1
    refine ⟨s', w', ?_, h'⟩
    unfold PT2314.runOps
    rw [hrun]
    exact hrest

/-- C17: from every prior state and on every bus, after `init` and then any finite sequence
of the public operations with arbitrary integer arguments, every call returns and the
stored volume, bass, treble, left and right attenuation are in `[0,100]`, the gain index is
in `[0,3]` and the internal channel is in `[0,3]` under either addressing mode. -/
theorem range_invariant (s0 : PT2314) (w0 : Wire) (ops : List PT2314.Op) :
    ∃ (ok : Bool) (s : PT2314) (w : Wire) (s' : PT2314) (w' : Wire),
      PT2314.init s0 w0 = some (ok, s, w) ∧ PT2314.runOps ops s w = some (s', w') ∧
      (0 ≤ s'._volume ∧ s'._volume ≤ 100) ∧ (0 ≤ s'._bass ∧ s'._bass ≤ 100) ∧
      (0 ≤ s'._treble ∧ s'._treble ≤ 100) ∧
      (0 ≤ s'._attenuationL ∧ s'._attenuationL ≤ 100) ∧
      (0 ≤ s'._attenuationR ∧ s'._attenuationR ≤ 100) ∧
      (0 ≤ s'._gain_index ∧ s'._gain_index ≤ 3) ∧ (0 ≤ s'._channel ∧ s'._channel ≤ 3) := by
  obtain ⟨ok, s, w, hinit, hs⟩ := init_wellFormed s0 w0
  obtain ⟨s', w', hrun, hs'⟩ := runOps_wellFormed ops s w hs
  exact ⟨ok, s, w, s', w', hinit, hrun, hs'.1⟩

/-! ## Mute and the stored settings -/

/-- The attenuation bytes of an unmuted state do not depend on any field other than the two
stored attenuation values. -/
theorem attenuationByte_of_unmuted (t u : PT2314) (ht : t._mute = false) (hu : u._mute = false)
    (hL : t._attenuationL = u._attenuationL) (hR : t._attenuationR = u._attenuationR) :
    t.attenuationByteL = u.attenuationByteL ∧ t.attenuationByteR = u.attenuationByteR := by
  unfold PT2314.attenuationByteL PT2314.attenuationByteR
  rw [ht, hu, hL, hR]
  exact ⟨rfl, rfl⟩

/-- C18: for `l`, `r` in `[0,100]` and on an always-succeeding bus, after `attenuation l r`,
`muteOn`, `muteOff` the accessors return `l`, `r` and the volume stored before, and the
attenuation bytes `muteOff` writes (followed by the volume byte) are `0xC0 | m(l)` and
`0xE0 | m(r)` with `m(a) = 31 - floor(a*31/100)`; when the driver was unmuted to begin with
these are the two bytes `attenuation l r` wrote. -/
theorem mute_round_trip (s : PT2314) (w : Wire) (l r : Int)
    (hl0 : 0 ≤ l) (hl1 : l ≤ 100) (hr0 : 0 ≤ r) (hr1 : r ≤ 100)
    (hbus : ∀ h, w.endTransmission h = 0) :
    ∃ (s1 : PT2314) (w1 : Wire) (s2 : PT2314) (w2 : Wire) (s3 : PT2314) (w3 : Wire)
      (bl br vb : Nat),
      PT2314.attenuation s w l r = (true, s1, w1) ∧ PT2314.muteOn s1 w1 = (true, s2, w2) ∧
      PT2314.muteOff s2 w2 = (true, s3, w3) ∧
      PT2314.getAttenuationL s3 = l ∧ PT2314.getAttenuationR s3 = r ∧
      PT2314.getVolume s3 = PT2314.getVolume s ∧
      w3.sent = w2.sent ++ [bl, br, vb] ∧
      (bl : Int) = Int.lor 0xC0 (31 - ⌊((l * 31 : Int) : ℚ) / 100⌋) ∧
      (br : Int) = Int.lor 0xE0 (31 - ⌊((r * 31 : Int) : ℚ) / 100⌋) ∧
      (s._mute = false → w1.sent = w.sent ++ [bl, br]) := by
  have hcl : Arduino.constrain l 0 100 = l := by
    rw [constrain_eq_clamp l 0 100 (by decide)]; omega
  have hcr : Arduino.constrain r 0 100 = r := by
    rw [constrain_eq_clamp r 0 100 (by decide)]; omega
  have hml : PT2314.attenuationMagnitude l = 31 - ⌊((l * 31 : Int) : ℚ) / 100⌋ := by
    unfold PT2314.attenuationMagnitude
    have : min (max l 0) 100 = l := by omega
    rw [this]
  have hmr : PT2314.attenuationMagnitude r = 31 - ⌊((r * 31 : Int) : ℚ) / 100⌋ := by
    unfold PT2314.attenuationMagnitude
    have : min (max r 0) 100 = r := by omega
    rw [this]
  have h1 := attenuation_run s w l r
  rw [updateAttenuation_ok _ w hbus] at h1
  have h2 := (mute_ok
    { s with _attenuationL := Arduino.constrain l 0 100,
             _attenuationR := Arduino.constrain r 0 100 }
    { w with sent := w.sent ++
        [({ s with _attenuationL := Arduino.constrain l 0 100,
                   _attenuationR := Arduino.constrain r 0 100 } : PT2314).attenuationByteL,
         ({ s with _attenuationL := Arduino.constrain l 0 100,
                   _attenuationR := Arduino.constrain r 0 100 } : PT2314).attenuationByteR] }
    hbus).1
  have h3 := (mute_ok
    { s with _attenuationL := Arduino.constrain l 0 100,
             _attenuationR := Arduino.constrain r 0 100,
             _mute := true,
             _volume_pt2314 := PT2314.volume_to_pt2314 s._volume }
    { w with sent := (w.sent ++
        [({ s with _attenuationL := Arduino.constrain l 0 100,
                   _attenuationR := Arduino.constrain r 0 100 } : PT2314).attenuationByteL,
         ({ s with _attenuationL := Arduino.constrain l 0 100,
                   _attenuationR := Arduino.constrain r 0 100 } : PT2314).attenuationByteR])
        ++ [0b11011111, 0b11111111, s.volumeByte] }
    hbus).2
  obtain ⟨eL, eR⟩ := attenuationByte_unmuted { s with _mute := false } l r rfl
  rw [hml] at eL
  rw [hmr] at eR
  refine ⟨_, _, _, _, _, _, _, _, _, h1, h2, h3, hcl, hcr, rfl, rfl, eL, eR, ?_⟩
  intro hm
  obtain ⟨e1, e2⟩ := attenuationByte_of_unmuted
    { s with _attenuationL := Arduino.constrain l 0 100,
             _attenuationR := Arduino.constrain r 0 100 }
    { s with _mute := false, _attenuationL := Arduino.constrain l 0 100,
             _attenuationR := Arduino.constrain r 0 100 } hm rfl rfl rfl
  show w.sent ++ [_, _] = w.sent ++ [_, _]
  rw [e1, e2]
  rfl

/-- C18 on the sample state and the quiet bus with the pair 40, 90. -/
theorem mute_round_trip_witness :
    (∀ h, quietWire.endTransmission h = 0) ∧
    ∃ (s1 : PT2314) (w1 : Wire) (s2 : PT2314) (w2 : Wire) (s3 : PT2314) (w3 : Wire)
      (bl br vb : Nat),
      PT2314.attenuation sampleState quietWire 40 90 = (true, s1, w1) ∧
      PT2314.muteOn s1 w1 = (true, s2, w2) ∧ PT2314.muteOff s2 w2 = (true, s3, w3) ∧
      PT2314.getAttenuationL s3 = 40 ∧ PT2314.getAttenuationR s3 = 90 ∧
      PT2314.getVolume s3 = PT2314.getVolume sampleState ∧
      w3.sent = w2.sent ++ [bl, br, vb] ∧
      (bl : Int) = Int.lor 0xC0 (31 - ⌊((40 * 31 : Int) : ℚ) / 100⌋) ∧
      (br : Int) = Int.lor 0xE0 (31 - ⌊((90 * 31 : Int) : ℚ) / 100⌋) ∧
      (sampleState._mute = false → w1.sent = quietWire.sent ++ [bl, br]) :=
  ⟨fun _ => rfl,
    mute_round_trip sampleState quietWire 40 90 (by decide) (by decide) (by decide)
      (by decide) (fun _ => rfl)⟩

/-! ## Register classes -/

/-- Sending one byte leaves exactly that byte on the bus record, whether or not its
transmission succeeded. -/
theorem sendAll_single_sent (w : Wire) (b : Nat) :
    (PT2314.sendAll w [b]).2.sent = w.sent ++ [b] := by
  rw [sendAll_cons, sendAll_nil]
  split_ifs <;> rfl

/-- With the stored volume in `[0,100]` the volume byte is at most `0x3F`. -/
theorem volumeByte_range (s : PT2314) (h0 : 0 ≤ s._volume) (h1 : s._volume ≤ 100) :
    s.volumeByte ≤ 0x3F := by
  obtain ⟨r0, r1⟩ := volume_to_pt2314_range s._volume h0 h1
  have h := toUChar_cast (PT2314.volume_to_pt2314 s._volume) r0 (by omega)
  unfold PT2314.volumeByte
  omega

/-- With gain index and channel in `[0,3]` the audio-switch byte lies in `[0x40, 0x5F]`. -/
theorem switchByte_range (s : PT2314) (hg0 : 0 ≤ s._gain_index) (hg1 : s._gain_index ≤ 3)
    (hc0 : 0 ≤ s._channel) (hc1 : s._channel ≤ 3) :
    0x40 ≤ s.switchByte ∧ s.switchByte ≤ 0x5F := by
  unfold PT2314.switchByte
  generalize s._gain_index = g at hg0 hg1
  generalize s._channel = c at hc0 hc1
  interval_cases g <;> interval_cases c <;> cases s._loudness <;> decide

/-- With the level in `[0,100]` the tone code is a table entry between 0 and 14, so the bass
byte lies in `[0x60, 0x6F]` and the treble byte in `[0x70, 0x7F]`. -/
theorem toneByte_range (level : Int) (h0 : 0 ≤ level) (h1 : level ≤ 100) :
    (0x60 ≤ toUChar (toUInt (Int.lor 0x60 (toUInt (PT2314.toneCode level)))) ∧
      toUChar (toUInt (Int.lor 0x60 (toUInt (PT2314.toneCode level)))) ≤ 0x6F) ∧
    (0x70 ≤ toUChar (toUInt (Int.lor 0x70 (toUInt (PT2314.toneCode level)))) ∧
      toUChar (toUInt (Int.lor 0x70 (toUInt (PT2314.toneCode level)))) ≤ 0x7F) := by
  obtain ⟨hmap, hi0, hi1⟩ := tone_index_range level h0 h1
  obtain ⟨e, he, e0, e1, hb, ht, hb', ht'⟩ := eq_to_pt2314_code _ hi0 hi1
  have hcode : PT2314.toneCode level = e := by
    unfold PT2314.toneCode
    rw [hmap, he]
    rfl
  rw [hcode]
  rw [hb'] at hb
  rw [ht'] at ht
  refine ⟨⟨?_, ?_⟩, ?_, ?_⟩ <;> omega

/-- With the stored attenuation values in `[0,100]` the left attenuation byte lies in
`[0xC0, 0xDF]` and the right one in `[0xE0, 0xFF]`, muted or not. -/
theorem attenuationByte_range (s : PT2314) (hl0 : 0 ≤ s._attenuationL)
    (hl1 : s._attenuationL ≤ 100) (hr0 : 0 ≤ s._attenuationR) (hr1 : s._attenuationR ≤ 100) :
    (0xC0 ≤ s.attenuationByteL ∧ s.attenuationByteL ≤ 0xDF) ∧
    (0xE0 ≤ s.attenuationByteR ∧ s.attenuationByteR ≤ 0xFF) := by
  cases hm : s._mute
  · have hL := map_down_eq s._attenuationL hl0
    have hR := map_down_eq s._attenuationR hr0
    have cl := attenuation_prefix_code (31 - s._attenuationL * 31 / 100) (by omega) (by omega)
    have cr := attenuation_prefix_code (31 - s._attenuationR * 31 / 100) (by omega) (by omega)
    obtain ⟨cl1, -, cl3, -⟩ := cl
    obtain ⟨-, cr2, -, cr4⟩ := cr
    rw [cl3] at cl1
    rw [cr4] at cr2
    have eL : s.attenuationByteL
        = toUChar (toUInt (Int.lor 0b11000000 (toUInt (31 - s._attenuationL * 31 / 100)))) := by
      unfold PT2314.attenuationByteL
      rw [hm, ← hL]
      rfl
    have eR : s.attenuationByteR
        = toUChar (toUInt (Int.lor 0b11100000 (toUInt (31 - s._attenuationR * 31 / 100)))) := by
      unfold PT2314.attenuationByteR
      rw [hm, ← hR]
      rfl
    rw [eL, eR]
    refine ⟨⟨?_, ?_⟩, ?_, ?_⟩ <;> omega
  · obtain ⟨eL, eR⟩ := attenuationByte_muted s hm
    rw [eL, eR]
    decide

/-- C19: in every state satisfying the range invariant and on every bus, the byte
`updateVolume` hands over lies in `[0x00,0x3F]`, that of `updateAudioSwitch` in
`[0x40,0x5F]`, that of `updateBass` in `[0x60,0x6F]`, that of `updateTreble` in
`[0x70,0x7F]`, and `updateAttenuation` hands over a left byte in `[0xC0,0xDF]` and, if that
was transmitted, a right byte in `[0xE0,0xFF]`, mute sentinels included; no byte belongs to
two of these six ranges. -/
theorem register_class_ranges (s : PT2314) (w : Wire) (h : PT2314.InRange s) :
    ((PT2314.updateVolume s w).2.2.sent = w.sent ++ [s.volumeByte] ∧
      0x00 ≤ s.volumeByte ∧ s.volumeByte ≤ 0x3F) ∧
    ((PT2314.updateAudioSwitch s w).map (fun r => r.2.sent) = some (w.sent ++ [s.switchByte]) ∧
      0x40 ≤ s.switchByte ∧ s.switchByte ≤ 0x5F) ∧
    ((PT2314.updateBass s w).map (fun r => r.2.sent) = some (w.sent ++ [s.bassByte]) ∧
      0x60 ≤ s.bassByte ∧ s.bassByte ≤ 0x6F) ∧
    ((PT2314.updateTreble s w).map (fun r => r.2.sent) = some (w.sent ++ [s.trebleByte]) ∧
      0x70 ≤ s.trebleByte ∧ s.trebleByte ≤ 0x7F) ∧
    (((PT2314.updateAttenuation s w).2.sent = w.sent ++ [s.attenuationByteL] ∨
        (PT2314.updateAttenuation s w).2.sent
          = w.sent ++ [s.attenuationByteL, s.attenuationByteR]) ∧
      (0xC0 ≤ s.attenuationByteL ∧ s.attenuationByteL ≤ 0xDF) ∧
      (0xE0 ≤ s.attenuationByteR ∧ s.attenuationByteR ≤ 0xFF)) ∧
    List.Pairwise
      (fun p q : Nat × Nat => ∀ b : Nat, ¬ ((p.1 ≤ b ∧ b ≤ p.2) ∧ (q.1 ≤ b ∧ b ≤ q.2)))
      [(0x00, 0x3F), (0x40, 0x5F), (0x60, 0x6F), (0x70, 0x7F), (0xC0, 0xDF), (0xE0, 0xFF)] := by
  obtain ⟨hv, hb, ht, hl, hr, hg, hc⟩ := h
  refine ⟨⟨?_, Nat.zero_le _, volumeByte_range s hv.1 hv.2⟩,
    ⟨?_, switchByte_range s hg.1 hg.2 hc.1 hc.2⟩,
    ⟨?_, (toneByte_range s._bass hb.1 hb.2).1⟩,
    ⟨?_, (toneByte_range s._treble ht.1 ht.2).2⟩,
    ⟨?_, attenuationByte_range s hl.1 hl.2 hr.1 hr.2⟩, ?_⟩
  · rw [updateVolume_send]
    exact sendAll_single_sent w _
  · rw [updateAudioSwitch_send s w hg.1 hg.2]
    exact congrArg some (sendAll_single_sent w _)
  · rw [updateBass_send s w hb.1 hb.2]
    exact congrArg some (sendAll_single_sent w _)
  · rw [updateTreble_send s w ht.1 ht.2]
    exact congrArg some (sendAll_single_sent w _)
  · rw [updateAttenuation_run]
    split_ifs
    · exact Or.inl rfl
    · exact Or.inr rfl
    · exact Or.inr rfl
  · simp only [List.pairwise_cons, List.mem_cons, List.mem_singleton, List.not_mem_nil,
      List.Pairwise.nil, and_true, forall_eq_or_imp, forall_eq, or_false, false_implies,
      implies_true]
    refine ⟨⟨?_, ?_, ?_, ?_, ?_⟩, ⟨?_, ?_, ?_, ?_⟩, ⟨?_, ?_, ?_⟩, ⟨?_, ?_⟩, ?_⟩ <;>
      intro b <;> omega

/-- C19 on the sample state: its six bytes 0x3B, 0x49, 0x60, 0x70, 0xDD, 0xFD. -/
theorem register_class_ranges_witness :
    PT2314.InRange sampleState ∧
    (0x00 ≤ sampleState.volumeByte ∧ sampleState.volumeByte ≤ 0x3F) ∧
    (0x40 ≤ sampleState.switchByte ∧ sampleState.switchByte ≤ 0x5F) ∧
    [sampleState.volumeByte, sampleState.switchByte, sampleState.bassByte,
      sampleState.trebleByte, sampleState.attenuationByteL, sampleState.attenuationByteR]
      = [0x3B, 0x49, 0x60, 0x70, 0xDD, 0xFD] :=
  ⟨sampleState_inRange,
    (register_class_ranges sampleState quietWire sampleState_inRange).1.2,
    (register_class_ranges sampleState quietWire sampleState_inRange).2.1.2, rfl⟩

/-! ## Table reads stay in bounds -/

/-- For a cached register in `[0,63]` the two indices computed by `getVolumedB` are in
`[0,7]`. -/
theorem volume_indices_range (R : Int) (h0 : 0 ≤ R) (h1 : R ≤ 63) :
    (0 ≤ Int.land R 0b00000111 ∧ Int.land R 0b00000111 ≤ 7) ∧
    (0 ≤ Int.shiftRight (Int.land R 0b00111000) 3 ∧
      Int.shiftRight (Int.land R 0b00111000) 3 ≤ 7) := by
  interval_cases R <;> decide

/-- In a well-formed state every table read of the driver is in bounds. -/
theorem wellFormed_lookups (t : PT2314) (h : PT2314.WellFormed t) :
    (0 ≤ Arduino.map t._bass 0 100 0 28 ∧ Arduino.map t._bass 0 100 0 28 ≤ 28) ∧
    (0 ≤ Arduino.map t._treble 0 100 0 28 ∧ Arduino.map t._treble 0 100 0 28 ≤ 28) ∧
    (∃ e, index? PT2314.eq_table (Arduino.map t._bass 0 100 0 28) = some e) ∧
    (∃ e, index? PT2314.eq_table (Arduino.map t._treble 0 100 0 28) = some e) ∧
    (0 ≤ t._gain_index ∧ t._gain_index ≤ 3) ∧
    (∃ g, index? PT2314.gain_array t._gain_index = some g) ∧
    (∃ q, PT2314.getGain t = some q) ∧
    (0 ≤ Int.land t._volume_pt2314 0b00000111 ∧ Int.land t._volume_pt2314 0b00000111 ≤ 7) ∧
    (0 ≤ Int.shiftRight (Int.land t._volume_pt2314 0b00111000) 3 ∧
      Int.shiftRight (Int.land t._volume_pt2314 0b00111000) 3 ≤ 7) ∧
    (∃ q, PT2314.getVolumedB t = some q) := by
  obtain ⟨⟨-, hb, ht, -, -, hg, -⟩, hp0, hp1⟩ := h
  obtain ⟨hbm, hb0, hb1⟩ := tone_index_range t._bass hb.1 hb.2
  obtain ⟨htm, ht0, ht1⟩ := tone_index_range t._treble ht.1 ht.2
  have hread : ∀ i : Int, 0 ≤ i → i ≤ 28 → ∃ e, index? PT2314.eq_table i = some e := by
    intro i i0 i1
    interval_cases i <;> exact ⟨_, rfl⟩
  obtain ⟨q, -, hq⟩ := getGain_eq t hg.1 hg.2
  obtain ⟨a, b, -, -, hdb, -⟩ := getVolumedB_of_register t hp0 hp1
  obtain ⟨hA, hB⟩ := volume_indices_range t._volume_pt2314 hp0 hp1
  refine ⟨?_, ?_, ?_, ?_, hg, ⟨_, index_gain_array _ hg.1 hg.2⟩, ⟨q, hq⟩, hA, hB,
    ⟨_, hdb⟩⟩
  · rw [hbm]; exact ⟨hb0, hb1⟩
  · rw [htm]; exact ⟨ht0, ht1⟩
  · rw [hbm]; exact hread _ hb0 hb1
  · rw [htm]; exact hread _ ht0 ht1

/-- C20: from every prior state and on every bus, after `init` and then any finite sequence
of the public operations with arbitrary integer arguments, every call returns (no table is
read out of bounds on the way) and in the state reached the index
`map level 0 100 0 28` of bass and of treble is in `[0,28]` and reads `eq_table` in bounds,
the gain index is in `[0,3]` and reads `gain_array` and `gain_array_dB` in bounds, and the
indices `A` and `B` of `getVolumedB` are in `[0,7]` and read `aSteps` and `bSteps` in
bounds. -/
theorem lookups_in_bounds (s0 : PT2314) (w0 : Wire) (ops : List PT2314.Op) :
    ∃ (ok : Bool) (s : PT2314) (w : Wire) (s' : PT2314) (w' : Wire),
      PT2314.init s0 w0 = some (ok, s, w) ∧ PT2314.runOps ops s w = some (s', w') ∧
      (0 ≤ Arduino.map s'._bass 0 100 0 28 ∧ Arduino.map s'._bass 0 100 0 28 ≤ 28) ∧
      (0 ≤ Arduino.map s'._treble 0 100 0 28 ∧ Arduino.map s'._treble 0 100 0 28 ≤ 28) ∧
      (∃ e, index? PT2314.eq_table (Arduino.map s'._bass 0 100 0 28) = some e) ∧
      (∃ e, index? PT2314.eq_table (Arduino.map s'._treble 0 100 0 28) = some e) ∧
      (0 ≤ s'._gain_index ∧ s'._gain_index ≤ 3) ∧
      (∃ g, index? PT2314.gain_array s'._gain_index = some g) ∧
      (∃ q, PT2314.getGain s' = some q) ∧
      (0 ≤ Int.land s'._volume_pt2314 0b00000111 ∧
        Int.land s'._volume_pt2314 0b00000111 ≤ 7) ∧
      (0 ≤ Int.shiftRight (Int.land s'._volume_pt2314 0b00111000) 3 ∧
        Int.shiftRight (Int.land s'._volume_pt2314 0b00111000) 3 ≤ 7) ∧
      (∃ q, PT2314.getVolumedB s' = some q) := by
  obtain ⟨ok, s, w, hinit, hs⟩ := init_wellFormed s0 w0
  obtain ⟨s', w', hrun, hs'⟩ := runOps_wellFormed ops s w hs
  exact ⟨ok, s, w, s', w', hinit, hrun, wellFormed_lookups s' hs'⟩
